import Mathlib

/-!
Verification of the rogue-js world-streaming and entity-storage core.

This file gives a shallow embedding, in Lean 4, of the JavaScript modules
`src/game/entity-manager.js`, `src/game/chunk-manager.js`,
`src/game/map-generation.js`, `src/game/tile.js` (draft in `src/unnamed`),
`src/game/grid.js` (draft in `src/unnamed`), `src/game/archetype/door.js`,
`src/lib/fast-random.js`, `src/lib/hiro.js` and `src/lib/gamma.js`
(draft in `src/unnamed`), and proves or refutes the behavioural claims made
about them.

Conventions of the embedding:
* JavaScript numbers holding integer values are modelled as `Int` (doubles are
  exact on all the integer ranges that occur here); results of the 32-bit
  coercing bitwise operators are produced through explicit `toInt32`/`toUint32`.
* JavaScript values of the fractional kind produced by `mulberry32` are dyadic
  rationals; they are modelled exactly as `ℚ`.
* Fallible code (JS exceptions such as `TypeError`/`ReferenceError`) is
  modelled with `Option`: a `none` result is a thrown exception.
* JS `undefined` and `null` stored in entity arrays are modelled by the
  explicit `JSVal` type.
-/

set_option autoImplicit false

/-! ## JavaScript 32-bit integer coercions (ECMA ToUint32 / ToInt32)

The bitwise operators of JavaScript coerce their operands to 32-bit integers.
`toUint32` and `toInt32` are those coercions for integral doubles. -/

/-- ECMAScript ToUint32 of an integral number. -/
def toUint32 (i : Int) : Nat := (i % (2 ^ 32 : Int)).toNat

/-- ECMAScript ToInt32 of an integral number. -/
def toInt32 (i : Int) : Int :=
  if toUint32 i < 2 ^ 31 then (toUint32 i : Int) else (toUint32 i : Int) - 2 ^ 32

/-- JavaScript `a << b` (left shift on Int32, result signed). -/
def jsShl (a b : Int) : Int := toInt32 ((toUint32 a <<< (toUint32 b % 32) : Nat) : Int)

/-- JavaScript `a >>> b` (unsigned right shift; result is a Uint32). -/
def jsShrU (a b : Int) : Int := ((toUint32 a >>> (toUint32 b % 32) : Nat) : Int)

/-- JavaScript `a >> b` (arithmetic right shift on Int32). -/
def jsShr (a b : Int) : Int := Int.shiftRight (toInt32 a) (toUint32 b % 32)

/-- JavaScript `a & b`. -/
def jsAnd (a b : Int) : Int := toInt32 ((toUint32 a &&& toUint32 b : Nat) : Int)

/-- JavaScript `a | b`. -/
def jsOr (a b : Int) : Int := toInt32 ((toUint32 a ||| toUint32 b : Nat) : Int)

/-- JavaScript `a ^ b`. -/
def jsXor (a b : Int) : Int := toInt32 ((toUint32 a ^^^ toUint32 b : Nat) : Int)

/-- JavaScript `~a` (complement of all 32 bits). -/
def jsNot (a : Int) : Int := toInt32 ((toUint32 a ^^^ (2 ^ 32 - 1) : Nat) : Int)

/-- JavaScript `Math.imul(a, b)` (32-bit multiplication, signed result). -/
def jsImul (a b : Int) : Int := toInt32 ((toUint32 a * toUint32 b : Nat) : Int)

/-- JavaScript `Math.round` on a nonnegative exact rational. -/
def jsRound (q : ℚ) : Int := ⌊q + 1 / 2⌋

/-! ## `src/lib/fast-random.js`: mulberry32 and `FRNG` -/

/-- One call of the closure returned by `mulberry32`.  The captured variable
`a` is a JS number that grows by `0x6D2B79F5` per call without 32-bit
wrap-around (the
`+=` is plain double addition); all other steps use coercing operators.
Returns the new captured state together with the produced value in `[0,1)`. -/
def mulberry32Next (a : Int) : Int × ℚ :=
  let a1 := a + 0x6D2B79F5
  let t1 := jsImul (jsXor a1 (jsShrU a1 15)) (jsOr a1 1)
  let t2 := jsXor t1 (t1 + jsImul (jsXor t1 (jsShrU t1 7)) (jsOr t1 61))
  (a1, (toUint32 (jsXor t2 (jsShrU t2 14)) : ℚ) / 4294967296)

namespace FRNG

/-- `FRNG.randInt(rng, a, b)`: random integer in `[a, b)`.  The single `rng()`
call is modelled by threading the mulberry32 state; returns (value, state). -/
def randInt (st : Int) (a b : Int) : Int × Int :=
  let p := mulberry32Next st
  (⌊p.2 * ((b : ℚ) - (a : ℚ)) + (a : ℚ)⌋, p.1)

/-- Helper for `randPdf`: walk the cumulative weights. -/
def pickPdf : Int → Int → List Int → Int
  | _, i, [] => i
  | r, i, w :: ws => if r < w then i else pickPdf (r - w) (i + 1) ws

/-- Modelled from the spec: `FRNG.randPdf` is called by `Door.randomize` but is
absent from `src/` (only callers exist).  The spec requires door generation to
be a deterministic function of the seeded rng, drawing from the per-depth
percentage tables; modelled as one `randInt(rng, 0, 100)` draw resolved
against the cumulative weights of the pdf row. -/
def randPdf (st : Int) (pdf : List Int) : Int × Int :=
  let p := randInt st 0 100
  (pickPdf p.1 0 pdf, p.2)

end FRNG

namespace HIRO

/-- `HIRO.rollSum(rng, n, m)` from `src/lib/hiro.js`: sum of `n` rolls of
`Math.round(1 + rng() * (m - 1))`.  Returns (total, new rng state). -/
def rollSum (st : Int) (n m : Int) : Int × Int :=
  (List.range n.toNat).foldl
    (fun acc _ =>
      let p := mulberry32Next acc.2
      (acc.1 + jsRound (1 + p.2 * ((m : ℚ) - 1)), p.1))
    ((0 : Int), st)

end HIRO

/-! ## Positions (`{x, y}` coordinate objects) -/

/-- A JS position object `{x, y}`. -/
structure Pos where
  x : Int
  y : Int
deriving DecidableEq, Repr

/-! ## Tile enumerations

Two distinct `Tile` enumerations coexist in the repository.
`src/game/chunk-manager.js` imports `./tile.js` (the draft kept in
`src/unnamed`, re-exported below as namespace `TileJs`), while
`src/game/map-generation.js` imports `./types.js` (namespace `TypesJs`). -/

namespace TileJs

def TileEmpty : Int := 0
def TilePlayer : Int := 1
def TileBedrock : Int := 2
def TileFloor : Int := 3
def TileWall : Int := 4
def TileOpenDoor : Int := 5
def TileClosedDoor : Int := 6
def TilePortcullisUp : Int := 7
def TilePortcullisDown : Int := 8
def TileGranite : Int := 11

/-- `tileCollision` from `tile.js`: `case Tile.Wall: case Tile.Bedrock: true`. -/
def tileCollision (tile : Int) : Bool :=
  tile == TileWall || tile == TileBedrock

/-- `tileEntity` from `tile.js`: `return tile > 4;`. -/
def tileEntity (tile : Int) : Bool :=
  decide (4 < tile)

end TileJs

namespace TypesJs

def TileFloor : Int := 1
def TileWall : Int := 2
def TileOpenDoor : Int := 3
def TileClosedDoor : Int := 4
def TileStairsUp : Int := 5
def TileStairsDown : Int := 6
def TilePlayer : Int := 7
def TileMerchant : Int := 8

/-- `Object.values(EntityType)` for the `EntityType` enum of
`src/game/types.js` (`Door: 1` … `Treasure: 8`), in insertion order. -/
def entityTypeValues : List Int := [1, 2, 3, 4, 5, 6, 7, 8]

end TypesJs

/-- `EntityType.Door` from `src/game/archetype/archetype.js`
(`Player 0, Room 1, Monster 2, Trap 3, Door 4, …`), used by the `Door`
constructor. -/
def archEntityTypeDoor : Int := 4

/-! ## `src/game/entity-manager.js`: packed entity IDs -/

namespace EntityManager

/-- `EntityManager.createID(type, idx)`: `((0xFF - type) << 24) | idx`. -/
def createID (type idx : Int) : Int := jsOr (jsShl (0xFF - type) 24) idx

/-- `EntityManager.getIDType(id)`: `0xFF - ((id & (0xFF << 24)) >>> 24)`. -/
def getIDType (id : Int) : Int := 0xFF - jsShrU (jsAnd id (jsShl 0xFF 24)) 24

/-- `EntityManager.getIDIndex(id)`: `id & ~(0xFF << 24)`. -/
def getIDIndex (id : Int) : Int := jsAnd id (jsNot (jsShl 0xFF 24))

end EntityManager

/-! ## `src/game/archetype/door.js`: the Door archetype -/

/-- Data class representing door data.  `isOpen` models the source field
`open` (a reserved word in Lean). -/
structure Door where
  id : Int
  tile : Int
  position : Pos
  collision : Bool
  visible : Bool
  occlusion : Bool
  isOpen : Bool
  stuck : Bool
  lock : Int
  trap : Int
  material : Int
  hitpoints : Int
deriving DecidableEq, Repr

namespace Door

/-- The `Door` constructor. -/
def new : Door :=
  { id := jsShl (0xFF - archEntityTypeDoor) 24
    tile := TileJs.TileClosedDoor
    position := ⟨0, 0⟩
    collision := true
    visible := true
    occlusion := true
    isOpen := false
    stuck := false
    lock := 0
    trap := 0
    material := 0
    hitpoints := 4 }

def materialChance : List (List Int) :=
  [[99,  0,  1,  0,  0,  0,  0],
   [94,  5,  1,  0,  0,  0,  0],
   [84, 10,  5,  1,  0,  0,  0],
   [70, 15, 10,  5,  0,  0,  0],
   [60, 20, 15,  5,  0,  0,  0],
   [50, 20, 20, 10,  0,  0,  0],
   [25, 25, 25, 24,  1,  0,  0],
   [15, 20, 38, 25,  1,  1,  0],
   [10, 15, 40, 31,  2,  1,  1],
   [ 5, 10, 30, 43,  5,  2,  5],
   [ 1,  5, 20, 49, 10,  5, 10]]

def lockChance : List (List Int) :=
  [[ 1, 15, 50, 29,  5,  0,  0],
   [90,  5,  3,  1,  1,  0,  0],
   [85,  5,  5,  4,  1,  0,  0],
   [80,  3,  7,  5,  4,  1,  0],
   [75,  3,  7,  7,  5,  3,  0],
   [70,  3,  7,  9,  7,  3,  1],
   [65,  1,  7,  9, 10,  5,  3],
   [60,  1,  5,  9, 10,  7,  3],
   [55,  1,  3,  9, 15, 12,  5],
   [50,  1,  3,  7, 15, 17,  7],
   [50,  1,  1,  5, 13, 20, 10]]

def trapChance : List (List Int) :=
  [[90, 10,  0,  0,  0,  0,  0],
   [90,  7,  2,  1,  0,  0,  0],
   [85, 10,  3,  1,  1,  0,  0],
   [80, 10,  5,  3,  2,  0,  0],
   [75, 10,  7,  5,  3,  0,  0],
   [70, 10,  7,  7,  3,  2,  1],
   [65, 10,  7, 10,  5,  2,  1],
   [60, 10,  5, 10, 10,  3,  2],
   [55, 10,  3, 12, 12,  5,  3],
   [50, 10,  2, 13, 13,  7,  5],
   [50, 10,  1, 14, 13,  7,  5]]

def openChance : List Int := [1, 15, 13, 11, 9, 7, 5, 3, 1, 1, 1]

def stuckChance : List Int := [1, 5, 7, 9, 11, 13, 15, 17, 19, 20, 20]

def secretChance : Int := 5

def portcullisChance : Int := 5

/-- `Door.HPFromMaterial`: the source `switch` has no `break`s, so execution
falls through from the matched material case to the end; every executed case
calls `HIRO.rollSum(rng, 2, 6)` and overwrites `hitpoints`.  The final value
is therefore always the last executed case, but every intermediate roll
consumes rng state. -/
def HPFromMaterial (st : Int) (door : Door) : Door × Int :=
  let bases : List Int :=
    if door.material = 0 then [0, 10, 20, 30, 40]
    else if door.material = 1 then [10, 20, 30, 40]
    else if door.material = 2 ∨ door.material = 4 then [20, 30, 40]
    else if door.material = 3 ∨ door.material = 5 then [30, 40]
    else if door.material = 6 then [40]
    else []
  bases.foldl
    (fun p base =>
      let r := HIRO.rollSum p.2 2 6
      ({ p.1 with hitpoints := base + r.1 }, r.2))
    (door, st)

/-- `Door.open(door)` (renamed: `open` is reserved in Lean). -/
def setOpen (door : Door) : Door :=
  let d := { door with isOpen := true, occlusion := false, collision := false, stuck := false }
  if d.tile = TileJs.TileClosedDoor ∨ d.tile = TileJs.TileGranite then
    { d with tile := TileJs.TileOpenDoor }
  else if d.tile = TileJs.TilePortcullisDown then
    { d with tile := TileJs.TilePortcullisUp }
  else d

/-- `Door.randomize(rng, door, depth)`.  The `&&` guards short-circuit, so no
rng draw happens for the secret/portcullis checks at depth 0. -/
def randomize (st : Int) (door : Door) (depth : Int) : Door × Int :=
  -- check for secret door
  let secret : Option (Door × Int) × Int :=
    if 0 < depth then
      let r := FRNG.randInt st 0 100
      if r.1 < secretChance then
        (some (HPFromMaterial r.2 { door with tile := TileJs.TileGranite }), r.2)
      else (none, r.2)
    else (none, st)
  match secret with
  | (some result, _) => result
  | (none, st1) =>
    -- random material
    let pm := FRNG.randPdf st1 (materialChance.getD depth.toNat [])
    let door1 := { door with material := pm.1 }
    -- check for portcullis
    let port : Door × Int :=
      if 0 < depth then
        let r := FRNG.randInt pm.2 0 100
        if r.1 < portcullisChance then
          ({ door1 with tile := TileJs.TilePortcullisDown,
                        material := max 2 door1.material, occlusion := false }, r.2)
        else (door1, r.2)
      else (door1, pm.2)
    let hp := HPFromMaterial port.2 port.1
    -- check for open door
    let ro := FRNG.randInt hp.2 0 100
    if ro.1 < openChance.getD depth.toNat 0 then
      (setOpen hp.1, ro.2)
    else
      -- check for stuck door
      let rs := FRNG.randInt ro.2 0 100
      let door2 := { hp.1 with stuck := rs.1 < stuckChance.getD depth.toNat 0 }
      -- check for locked door
      let pl := FRNG.randPdf rs.2 (lockChance.getD depth.toNat [])
      let door3 : Door := { door2 with lock := pl.1 }
      -- check for trapped door
      if 0 < door3.lock then
        let pt := FRNG.randPdf pl.2 (trapChance.getD depth.toNat [])
        ({ door3 with trap := pt.1 }, pt.2)
      else (door3, pl.2)

end Door

/-! ## Entities and the JS values stored in the manager arrays -/

/-- A live game object.  The chunk manager only ever generates `Door`s; the
`raw` constructor stands for any other JS object carrying an `id` field (the
entity manager reads and writes nothing but `id`). -/
inductive Entity where
  | door (d : Door)
  | raw (id : Int) (payload : Nat)
deriving DecidableEq, Repr

/-- Read the `id` field of an entity object. -/
def Entity.id : Entity → Int
  | .door d => d.id
  | .raw i _ => i

/-- Write the `id` field of an entity object (`entity.id = …`). -/
def Entity.withId : Entity → Int → Entity
  | .door d, i => .door { d with id := i }
  | .raw _ p, i => .raw i p

/-- A JS value held in an `EntityManager` data slot: `undefined` (absent /
past the end), `null` (deleted), or an entity object. -/
inductive JSVal where
  | undefined
  | null
  | ent (e : Entity)
deriving DecidableEq, Repr

/-- Truthiness test used by `if (!entity)`: objects are truthy, `null` and
`undefined` are falsy. -/
def JSVal.isEnt : JSVal → Bool
  | .ent _ => true
  | _ => false

/-- JS array element read `arr[i]`: `undefined` for any index outside
`[0, length)`. -/
def jsGetArr (arr : List JSVal) (i : Int) : JSVal :=
  if i < 0 then .undefined else arr.getD i.toNat .undefined

/-- JS array element write `arr[i] = v`: in-range writes update, writes past
the end extend the array with holes (`undefined`).  A negative index creates
a non-element property, which no element read in this code ever sees; it is
modelled as a no-op. -/
def jsSetArr (arr : List JSVal) (i : Int) (v : JSVal) : List JSVal :=
  if i < 0 then arr
  else if i.toNat < arr.length then arr.set i.toNat v
  else arr ++ List.replicate (i.toNat - arr.length) .undefined ++ [v]

/-! ## `src/game/entity-manager.js`: the manager proper -/

/-- The entity manager.  `data` and `bin` are JS arrays indexed by archetype
tag; the constructor initialises exactly the indices in
`Object.values(EntityType)`, every other index reads as `undefined` (`none`).
Indexing with an arbitrary JS number is modelled by the `Int`-indexed
functions. -/
structure EntityManager where
  data : Int → Option (List JSVal)
  bin : Int → Option (List Int)

namespace EntityManager

/-- The `EntityManager` constructor. -/
def new : EntityManager :=
  { data := fun t => if t ∈ TypesJs.entityTypeValues then some [] else none
    bin := fun t => if t ∈ TypesJs.entityTypeValues then some [] else none }

/-- `lookup(id)`: `this.data[type][idx]`.  `none` models the `TypeError`
thrown when `data[type]` is `undefined`. -/
def lookup (em : EntityManager) (id : Int) : Option JSVal :=
  (em.data (getIDType id)).map fun arr => jsGetArr arr (getIDIndex id)

/-- `insert(entity)`: take the provisional type from `entity.id`, reuse the
most recently freed slot of that type if any (`bin.pop()`), else append;
assign `entity.id = createID(type, idx)` (the stored reference is the same
object, so the stored entity carries the new id); return the new id.
`none` models the `TypeError` when the archetype arrays are uninitialised. -/
def insert (em : EntityManager) (entity : Entity) : Option (EntityManager × Int) :=
  let type := getIDType entity.id
  match em.bin type, em.data type with
  | some binT, some dataT =>
    if binT.length = 0 then
      let idx : Int := dataT.length
      let newId := createID type idx
      some ({ em with
                data := fun t => if t = type then some (dataT ++ [.ent (entity.withId newId)]) else em.data t },
            newId)
    else
      let idx : Int := binT.getLast?.getD 0
      let newId := createID type idx
      some ({ em with
                data := fun t => if t = type then some (jsSetArr dataT idx (.ent (entity.withId newId))) else em.data t
                bin := fun t => if t = type then some binT.dropLast else em.bin t },
            newId)
  | _, _ => none

/-- `remove(id)`: return the entity and free the slot; `some (em, none)` is
the `return undefined` path for an empty slot (state untouched). -/
def remove (em : EntityManager) (id : Int) : Option (EntityManager × Option Entity) :=
  let type := getIDType id
  let idx := getIDIndex id
  match em.data type with
  | none => none
  | some dataT =>
    match jsGetArr dataT idx with
    | .ent e =>
      match em.bin type with
      | none => none
      | some binT =>
        some ({ em with
                  bin := fun t => if t = type then some (binT ++ [idx]) else em.bin t
                  data := fun t => if t = type then some (jsSetArr dataT idx .null) else em.data t },
              some e)
    | _ => some (em, none)

/-- `delete(id)`: free the slot without returning the entity. -/
def delete (em : EntityManager) (id : Int) : Option (EntityManager × Option Int) :=
  let type := getIDType id
  let idx := getIDIndex id
  match em.data type with
  | none => none
  | some dataT =>
    match jsGetArr dataT idx with
    | .ent _ =>
      match em.bin type with
      | none => none
      | some binT =>
        some ({ em with
                  bin := fun t => if t = type then some (binT ++ [idx]) else em.bin t
                  data := fun t => if t = type then some (jsSetArr dataT idx .null) else em.data t },
              some id)
    | _ => some (em, none)

end EntityManager

/-! ## Slot reuse and stale-handle behaviour (entity manager) -/

/-- The manager state after `delete(createID t i)` frees a live slot `i` of
archetype `t` whose data array is `arr` and free list is `binT`. -/
def emAfterDelete (em : EntityManager) (t i : Int) (arr : List JSVal) (binT : List Int) : EntityManager :=
  { em with
      bin := fun u => if u = t then some (binT ++ [i]) else em.bin u
      data := fun u => if u = t then some (jsSetArr arr i .null) else em.data u }

/-- The manager state after the freed slot is reused by `insert` for a new
entity of the same archetype tag. -/
def emAfterReinsert (em : EntityManager) (t i : Int) (arr : List JSVal) (binT : List Int)
    (eNew : Entity) : EntityManager :=
  let em1 := emAfterDelete em t i arr binT
  { em1 with
      data := fun u =>
        if u = t then
          some (jsSetArr (jsSetArr arr i .null) i (.ent (eNew.withId (EntityManager.createID t i))))
        else em1.data u
      bin := fun u => if u = t then some (binT ++ [i]).dropLast else em1.bin u }

/-- A concrete manager holding one entity of archetype 1 at slot 0 (its data
array for tag 1 is `[ent (raw (createID 1 0) 0)]`), as produced by one insert
into a fresh manager. -/
def emC3start : EntityManager :=
  { data := fun t =>
      if t = 1 then some [.ent (.raw (EntityManager.createID 1 0) 0)]
      else if t ∈ TypesJs.entityTypeValues then some [] else none
    bin := fun t => if t ∈ TypesJs.entityTypeValues then some [] else none }

/-- Result of deleting the stored entity and inserting a fresh entity of the
same archetype tag. -/
def emC3end : Option (EntityManager × Int) :=
  (emC3start.delete (EntityManager.createID 1 0)).bind fun p =>
    p.1.insert (.raw (EntityManager.createID 1 0) 1)

/-! ## JS object maps keyed by strings

JS objects with non-index string keys enumerate in insertion order; a fresh
key is appended, an existing key is overwritten in place, `delete` removes it.
The string keys used in this code (`"{x hex},{y hex}"` for positions,
`"{depth hex}_{u hex}_{v hex}"` for chunks) are injective images of the
underlying tuples, so the maps are modelled as association lists keyed by the
tuples themselves. -/

/-- JS object property read `m[k]` (`undefined` as `none`). -/
def objGet {κ α : Type} [DecidableEq κ] (m : List (κ × α)) (k : κ) : Option α :=
  (m.find? fun e => decide (e.1 = k)).map (·.2)

/-- JS object property write `m[k] = v`: overwrite in place when the key is
present (keys are unique in every map built here, so replacing the first
occurrence is the JS behaviour), else append the fresh key. -/
def objSet {κ α : Type} [DecidableEq κ] (m : List (κ × α)) (k : κ) (v : α) : List (κ × α) :=
  match m with
  | [] => [(k, v)]
  | e :: rest => if e.1 = k then (k, v) :: rest else e :: objSet rest k v

/-- JS object property removal `delete m[k]`. -/
def objDelete {κ α : Type} [DecidableEq κ] (m : List (κ × α)) (k : κ) : List (κ × α) :=
  m.filter fun e => !(decide (e.1 = k))

/-! ## `src/game/grid.js` (draft in `src/unnamed`): TileGrid, BitGrid, IDGrid -/

/-- `TileGrid`: an `N×N` grid over a `Uint8Array` (one byte per cell,
zero-initialised; modelled as the list of byte values). -/
structure TileGrid where
  width : Int
  data : List Nat
deriving DecidableEq, Repr

/-- The `TileGrid` constructor. -/
def TileGrid.new (width : Int) : TileGrid :=
  { width := width, data := List.replicate (width * width).toNat 0 }

/-- `getTile(position)`: `this.data[y * width + x]`; `none` is the
`undefined` produced by an out-of-range typed-array read. -/
def TileGrid.getTile (g : TileGrid) (position : Pos) : Option Int :=
  if 0 ≤ position.y * g.width + position.x ∧
      (position.y * g.width + position.x).toNat < g.data.length then
    some (g.data.getD (position.y * g.width + position.x).toNat 0 : Int)
  else none

/-- `setTile(position, tile)`: typed-array writes coerce the value with
ToUint8 (mod 256) and silently ignore out-of-range indices. -/
def TileGrid.setTile (g : TileGrid) (position : Pos) (tile : Int) : TileGrid :=
  if 0 ≤ position.y * g.width + position.x ∧
      (position.y * g.width + position.x).toNat < g.data.length then
    { g with data := g.data.set (position.y * g.width + position.x).toNat (tile % 256).toNat }
  else g

/-- JS truncating division used as `(x / 8) >> 0` (toward zero). -/
def jsTrunc8 (x : Int) : Int := Int.tdiv x 8

/-- JS remainder `x % 8` (sign of the dividend). -/
def jsRem8 (x : Int) : Int := x - 8 * Int.tdiv x 8

/-- `BitGrid`: one bit per cell, packed 8 per byte, bit `7 - x % 8` of byte
`y * bytesPerRow + (x / 8 >> 0)` (the `Uint8Array` is modelled as the list
of byte values). -/
structure BitGrid where
  width : Int
  bytesPerRow : Int
  data : List Nat
deriving DecidableEq, Repr

/-- The `BitGrid` constructor (`bytesPerRow = width >> 3`). -/
def BitGrid.new (width : Int) : BitGrid :=
  { width := width
    bytesPerRow := jsShr width 3
    data := List.replicate (width * jsShr width 3).toNat 0 }

/-- Byte index of a position. -/
def BitGrid.byteIndex (g : BitGrid) (position : Pos) : Int :=
  position.y * g.bytesPerRow + jsTrunc8 position.x

/-- Bit mask of a position, as the low 32 bits of `1 << (7 - x % 8)`. -/
def BitGrid.mask (position : Pos) : Nat :=
  toUint32 (jsShl 1 (7 - jsRem8 position.x))

/-- Byte read helper: out-of-range reads give `undefined`, which the bitwise
context coerces to 0. -/
def BitGrid.byteAt (g : BitGrid) (position : Pos) : Nat :=
  let bi := g.byteIndex position
  if 0 ≤ bi then g.data.getD bi.toNat 0 else 0

/-- `getBit(position)`: `0 < (byte & mask)`. -/
def BitGrid.getBit (g : BitGrid) (position : Pos) : Bool :=
  decide (0 < g.byteAt position &&& BitGrid.mask position)

/-- In-range byte update helper (out-of-range typed-array writes are
ignored; the stored byte is the low 8 bits). -/
def BitGrid.setByte (g : BitGrid) (position : Pos) (f : Nat → Nat) : BitGrid :=
  let bi := g.byteIndex position
  if 0 ≤ bi ∧ bi.toNat < g.data.length then
    { g with data := g.data.set bi.toNat (f (g.data.getD bi.toNat 0) % 256) }
  else g

/-- `setBit(position)`: `data[i] |= mask`. -/
def BitGrid.setBit (g : BitGrid) (position : Pos) : BitGrid :=
  g.setByte position fun b => b ||| BitGrid.mask position

/-- `clearBit(position)`: `data[i] &= ~mask`. -/
def BitGrid.clearBit (g : BitGrid) (position : Pos) : BitGrid :=
  g.setByte position fun b => b &&& toUint32 (jsNot (jsShl 1 (7 - jsRem8 position.x)))

/-- `clear()`: `this.data.fill(0)`. -/
def BitGrid.clear (g : BitGrid) : BitGrid :=
  { g with data := List.replicate g.data.length 0 }

/-- `IDGrid`: a sparse map from local position to a LIFO stack of entity IDs
(keys are PositionStrings; see the note on `objGet`). -/
structure IDGrid where
  data : List (Pos × List Int)
deriving DecidableEq, Repr

/-- The `IDGrid` constructor. -/
def IDGrid.new : IDGrid := ⟨[]⟩

/-- `setID(position, id)`: push onto the stack, creating it if absent. -/
def IDGrid.setID (g : IDGrid) (position : Pos) (id : Int) : IDGrid :=
  match objGet g.data position with
  | none => ⟨objSet g.data position [id]⟩
  | some st => ⟨objSet g.data position (st ++ [id])⟩

/-- `getID(position)`: `.at(-1)` of the stack — `undefined` when the key is
absent or the stack is empty. -/
def IDGrid.getID (g : IDGrid) (position : Pos) : Option Int :=
  (objGet g.data position).bind (·.getLast?)

/-- `popID(position)`: pop the top of the stack if the key exists. -/
def IDGrid.popID (g : IDGrid) (position : Pos) : IDGrid × Option Int :=
  match objGet g.data position with
  | none => (g, none)
  | some st => (⟨objSet g.data position st.dropLast⟩, st.getLast?)

/-- `replaceID(position, id)`: pop then push on the (possibly created)
stack; returns the replaced id. -/
def IDGrid.replaceID (g : IDGrid) (position : Pos) (id : Int) : IDGrid × Option Int :=
  let st := (objGet g.data position).getD []
  (⟨objSet g.data position (st.dropLast ++ [id])⟩, st.getLast?)

/-- `reset()`: delete every key. -/
def IDGrid.reset (_g : IDGrid) : IDGrid := ⟨[]⟩

/-! ## `src/lib/gamma.js` (draft in `src/unnamed`): GAMMA2 -/

namespace GAMMA2

/-- `clamp(x, a, b)`. -/
def clamp (x a b : Int) : Int := min (max x a) b

/-- `LInfNorm(x1, x2)`: Chebyshev distance. -/
def LInfNorm (x1 x2 : Pos) : Int := max |x2.x - x1.x| |x2.y - x1.y|

/-- `pairHash(x)`: Szudzik pairing. -/
def pairHash (x : Pos) : Int :=
  if x.x ≥ x.y then x.x * x.x + x.x + x.y else x.x + x.y * x.y

end GAMMA2

/-! ## Hex/decimal string primitives for the diff formats

Diff values are genuine strings in the source; they are modelled as
`List Char` so that the parsing code (including its use of `Array.indexOf`)
can be translated exactly. -/

/-- Value of one hexadecimal digit (`parseInt` accepts both cases). -/
def hexDigitVal (c : Char) : Option Nat :=
  if '0' ≤ c ∧ c ≤ '9' then some (c.toNat - '0'.toNat)
  else if 'a' ≤ c ∧ c ≤ 'f' then some (c.toNat - 'a'.toNat + 10)
  else if 'A' ≤ c ∧ c ≤ 'F' then some (c.toNat - 'A'.toNat + 10)
  else none

/-- Leading hexadecimal digits of a character list, as a number; `none` when
there is no leading digit. -/
def parseHexDigits (l : List Char) : Option Nat :=
  let ds := l.takeWhile fun c => (hexDigitVal c).isSome
  if ds.isEmpty then none
  else some (ds.foldl (fun acc c => acc * 16 + (hexDigitVal c).getD 0) 0)

/-- JavaScript `parseInt(s, 16)` on the strings occurring here (no leading
whitespace or `0x` prefix ever occurs): an optional sign followed by leading
hex digits; `none` is `NaN`. -/
def parseIntHex (s : List Char) : Option Int :=
  match s with
  | '-' :: rest => (parseHexDigits rest).map fun n => -(n : Int)
  | _ => (parseHexDigits s).map fun n => (n : Int)

/-- JavaScript `n.toString(16)` for an integral number. -/
def intToHex (n : Int) : List Char :=
  (if n < 0 then ['-'] else []) ++ Nat.toDigits 16 n.natAbs

/-- JavaScript `String.prototype.split` with a one-character separator. -/
def splitOnChar (sep : Char) : List Char → List (List Char)
  | [] => [[]]
  | c :: rest =>
    match splitOnChar sep rest with
    | [] => [[c]]
    | h :: t => if c = sep then [] :: h :: t else (c :: h) :: t

/-- JavaScript `Array.prototype.indexOf` on an array of strings (`-1` when
the element is absent). -/
def jsArrIndexOf (arr : List (List Char)) (target : List Char) : Int :=
  match arr.findIdx? fun e => decide (e = target) with
  | some i => (i : Int)
  | none => -1

/-- JavaScript `String.prototype.indexOf` for a one-character needle. -/
def jsStrIndexOf (s : List Char) (c : Char) : Int :=
  match s.findIdx? fun d => decide (d = c) with
  | some i => (i : Int)
  | none => -1

/-- Modelled from the spec: `EntityManager.IDToStr` is called by
`ChunkManager.unloadChunk` to render an EntityID into the entity-diff value
format `"{x},{y}:{EntityID-as-string}"` but is absent from `src/`; modelled
as the decimal string of the signed id. -/
def entityIDToStr (id : Int) : List Char :=
  (if id < 0 then ['-'] else []) ++ Nat.toDigits 10 id.natAbs

/-- Leading decimal digits helper for `StrToID`. -/
def parseDecDigits (l : List Char) : Option Nat :=
  let ds := l.takeWhile fun c => decide ('0' ≤ c ∧ c ≤ '9')
  if ds.isEmpty then none
  else some (ds.foldl (fun acc c => acc * 10 + (c.toNat - '0'.toNat)) 0)

/-- Modelled from the spec: `EntityManager.StrToID`, inverse of
`entityIDToStr`; absent from `src/`. -/
def strToEntityID (s : List Char) : Option Int :=
  match s with
  | '-' :: rest => (parseDecDigits rest).map fun n => -(n : Int)
  | _ => (parseDecDigits s).map fun n => (n : Int)

/-! ## `src/game/map-generation.js`: the World template -/

/-- The world template of `map-generation.js` (the named draft, whose
`generateTown` builds the wall rectangle and the player-spawn seed tile).
Overrides are keyed by `coordToString` (`"{x hex},{y hex}"`, injective —
modelled by the coordinate pair). -/
structure World where
  seed : Int
  depth : Int
  defaultTile : Int
  tiles : List (Pos × Int)
  width : Int
  height : Int
deriving DecidableEq, Repr

namespace World

/-- The `World` constructor. -/
def new (seed : Int) (depth : Int := 0) : World :=
  { seed := seed, depth := depth, defaultTile := TypesJs.TileFloor
    tiles := [], width := 0, height := 0 }

/-- `insert(tile, x, y)`: overwrite the override at `(x, y)`. -/
def insert (w : World) (tile : Int) (x y : Int) : World :=
  { w with tiles := objSet w.tiles ⟨x, y⟩ tile }

/-- `lookup(x_w, y_w)`: the override if present, else the default tile (the
static `tileStore` scratch variable has no observable effect). -/
def lookup (w : World) (xw yw : Int) : Int :=
  (objGet w.tiles ⟨xw, yw⟩).getD w.defaultTile

/-- Modelled from the spec: `World.delete` is invoked by
`ChunkManager.loadChunk` to convert an entity-seed tile into the default
floor tile, and the spec names `insert`/`delete` as the only override
mutators with `lookup` returning `defaultTile` after removal — but no
`delete` method appears in any draft of `map-generation.js` under `src/`.
Modelled as removal of the override at `(x, y)`. -/
def delete (w : World) (x y : Int) : World :=
  { w with tiles := objDelete w.tiles ⟨x, y⟩ }

end World

/-! ## `src/game/chunk-manager.js`: Chunk and ChunkManager -/

/-- A Chunk: 16×16 tile/visibility/collision/entity-ID grids. -/
structure Chunk where
  tileGrid : TileGrid
  visGrid : BitGrid
  colGrid : BitGrid
  idGrid : IDGrid
deriving DecidableEq, Repr

namespace Chunk

/-- `Chunk.size`. -/
def size : Int := 16

/-- The `Chunk` constructor. -/
def new : Chunk :=
  { tileGrid := TileGrid.new size
    visGrid := BitGrid.new size
    colGrid := BitGrid.new size
    idGrid := IDGrid.new }

/-- `worldToUV(position)`: `Math.floor(coord / Chunk.size)`. -/
def worldToUV (position : Pos) : Pos :=
  ⟨Int.fdiv position.x size, Int.fdiv position.y size⟩

/-- `UVToWorld(position)`. -/
def UVToWorld (position : Pos) : Pos :=
  ⟨position.x * size, position.y * size⟩

/-- `hashSeed(seed, depth, position)`: `((depth + 1) * seed) ^ pairHash(position)`. -/
def hashSeed (seed depth : Int) (position : Pos) : Int :=
  jsXor ((depth + 1) * seed) (GAMMA2.pairHash position)

/-- `toChunkString(depth, position)` produces the injective key
`"{depth hex}_{u hex}_{v hex}"`, modelled as the tuple `(depth, position)`. -/
def toChunkString (depth : Int) (position : Pos) : Int × Pos := (depth, position)

/-- `toChunkDiff(position, tile)`: the record `"{x hex},{y hex}:{tile hex}"`. -/
def toChunkDiff (position : Pos) (tile : Int) : List Char :=
  intToHex position.x ++ [','] ++ intToHex position.y ++ [':'] ++ intToHex tile

/-- The row-major cell traversal `for y … for x …` of the 16×16 loops. -/
def cells : List Pos :=
  (List.range size.toNat).flatMap fun (y : Nat) =>
    (List.range size.toNat).map fun (x : Nat) => (⟨(x : Int), (y : Int)⟩ : Pos)

end Chunk

/-- `generateTown()` of the named `map-generation.js` draft: sets
`defaultTile`, dimensions `8 * Chunk.size`, draws the border walls, and
inserts the `Tile.Player` spawn seed; returns the spawn position. -/
def World.generateTown (w : World) : World × Pos :=
  let width : Int := 8 * Chunk.size
  let height : Int := 8 * Chunk.size
  let w0 : World := { w with defaultTile := TypesJs.TileFloor, width := width, height := height }
  let spawn : Pos := ⟨Int.fdiv width 2, Int.fdiv height 2⟩
  let w1 := (List.range width.toNat).foldl
    (fun (acc : World) (i : Nat) =>
      (acc.insert TypesJs.TileWall (i : Int) 0).insert TypesJs.TileWall (i : Int) (height - 1))
    w0
  let w2 := (List.range' 1 (height - 2).toNat).foldl
    (fun (acc : World) (i : Nat) =>
      (acc.insert TypesJs.TileWall 0 (i : Int)).insert TypesJs.TileWall (width - 1) (i : Int))
    w1
  let w3 := w2.insert TypesJs.TilePlayer spawn.x spawn.y
  (w3, spawn)

/-- The chunk manager state.  `chunkMap` is keyed by PositionStrings
(modelled by the positions; see `objGet`); `bin`/`chunkMap` values are the
JS numbers used to index `chunkBuffer`. -/
structure ChunkManager where
  playerPosition : Pos
  position : Pos
  width : Int
  height : Int
  distance : Int
  maxChunks : Int
  chunkMap : List (Pos × Int)
  chunkBuffer : List Chunk
  bin : List Int
  entityGenStack : List Int
  chunkDiffCache : List ((Int × Pos) × List Char)
  entityDiffCache : List ((Int × Pos) × List Char)
deriving DecidableEq, Repr

/-- The combined mutable state threaded through chunk operations: the
manager, the world template, the entity manager, and `window.localStorage`
(keyed by ChunkStrings). -/
structure GState where
  cm : ChunkManager
  world : World
  em : EntityManager
  storage : List ((Int × Pos) × List Char)

namespace ChunkManager

/-- The `ChunkManager` constructor.  Note that `maxChunks` is computed from
the raw `distance` argument while `this.distance` stores the clamped value,
and that the buffer-fill loop pushes indices `maxChunks-1 … 0` onto `bin`. -/
def new (position : Pos) (width height distance : Int) : ChunkManager :=
  let playerPosition := Chunk.worldToUV position
  let maxChunks : Int := 1 + 4 * (distance * (distance + 1))
  { playerPosition := playerPosition
    position := playerPosition
    width := Int.fdiv width Chunk.size
    height := Int.fdiv height Chunk.size
    distance := GAMMA2.clamp distance 1 8
    maxChunks := maxChunks
    chunkMap := []
    chunkBuffer := List.replicate maxChunks.toNat Chunk.new
    bin := (List.range maxChunks.toNat).map fun (i : Nat) => maxChunks - 1 - (i : Int)
    entityGenStack := []
    chunkDiffCache := []
    entityDiffCache := [] }

/-- `loaded(position)`. -/
def loaded (cm : ChunkManager) (position : Pos) : Bool :=
  (objGet cm.chunkMap position).isSome

/-- `chunksAvailable()`. -/
def chunksAvailable (cm : ChunkManager) : Bool :=
  decide (0 < cm.bin.length)

/-- `inBounds(position)`. -/
def inBounds (cm : ChunkManager) (position : Pos) : Bool :=
  decide (0 ≤ position.x ∧ 0 ≤ position.y ∧ position.x < cm.width ∧ position.y < cm.height)

/-- `withinDistance(position)`. -/
def withinDistance (cm : ChunkManager) (position : Pos) : Bool :=
  decide (GAMMA2.LInfNorm cm.playerPosition position ≤ cm.distance)

/-- `getChunk(position)`: `chunkBuffer[chunkMap[posToStr(position)]]` —
`undefined` when the key is absent or the index is out of range. -/
def getChunk (cm : ChunkManager) (position : Pos) : Option Chunk :=
  (objGet cm.chunkMap position).bind fun idx =>
    if 0 ≤ idx then cm.chunkBuffer.get? idx.toNat else none

/-- `generateEntity(rng, tile, position, depth, chunk, em)`: only
`Tile.ClosedDoor` generates anything — a `Door` is inserted into the entity
manager, its id is pushed onto the chunk's id grid, and `Door.randomize` then
mutates the freshly inserted object (the stored reference), consuming rng
state.  `none` models the `TypeError` thrown by `em.insert` when the
archetype arrays are uninitialised. -/
def generateEntity (rng : Int) (tile : Int) (position : Pos) (depth : Int)
    (chunk : Chunk) (em : EntityManager) : Option (Chunk × EntityManager × Int) :=
  if tile = TileJs.TileClosedDoor then
    let door := Door.new
    match em.insert (.door door) with
    | none => none
    | some (em1, newId) =>
      let chunk1 := { chunk with idGrid := chunk.idGrid.setID position newId }
      let pr := Door.randomize rng { door with id := newId } depth
      let em2 : EntityManager :=
        { em1 with data := fun t =>
            if t = EntityManager.getIDType newId then
              (em1.data t).map fun arr =>
                jsSetArr arr (EntityManager.getIDIndex newId) (.ent (.door pr.1))
            else em1.data t }
      some (chunk1, em2, pr.2)
  else some (chunk, em, rng)

/-- One iteration of the cell loop of `loadChunk`: entity-seed tiles (with no
cached entity diff) generate their entity, delete the world override and
write the default tile; other tiles are copied; the collision bit is set from
`tileCollision` of the world tile in either case. -/
def loadCell (worldPos : Pos) (entityDiffMissing : Bool)
    (st : Chunk × World × EntityManager × Int) (p : Pos) :
    Option (Chunk × World × EntityManager × Int) :=
  let (chunk, w, em, rng) := st
  let tile := w.lookup (worldPos.x + p.x) (worldPos.y + p.y)
  let afterTile : Option (Chunk × World × EntityManager × Int) :=
    if TileJs.tileEntity tile then
      if entityDiffMissing then
        match generateEntity rng tile p w.depth chunk em with
        | none => none
        | some (chunk1, em1, rng1) =>
          let w1 := w.delete (worldPos.x + p.x) (worldPos.y + p.y)
          some ({ chunk1 with tileGrid := chunk1.tileGrid.setTile p w1.defaultTile }, w1, em1, rng1)
      else some (chunk, w, em, rng)
    else
      some ({ chunk with tileGrid := chunk.tileGrid.setTile p tile }, w, em, rng)
  afterTile.map fun st1 =>
    if TileJs.tileCollision tile then
      ({ st1.1 with colGrid := st1.1.colGrid.setBit p }, st1.2)
    else st1

/-- The full 256-cell template scan of `loadChunk`. -/
def scanCells (world : World) (position : Pos) (em : EntityManager) (rng : Int)
    (chunk : Chunk) (entityDiffMissing : Bool) :
    Option (Chunk × World × EntityManager × Int) :=
  let worldPos := Chunk.UVToWorld position
  Chunk.cells.foldlM (loadCell worldPos entityDiffMissing) (chunk, world, em, rng)

/-- The chunk-diff application loop of `loadChunk`.  The y-coordinate
computation faithfully models the source bug: `keyVal.indexOf(',')` calls
`Array.prototype.indexOf` on the split ARRAY (not on the string
`keyVal[0]`), which yields `-1` unless some record piece is the
one-character string listed; `slice(-1 + 1)` then re-parses the whole
`"x,y"` prefix, so `uv.y` comes out equal to `uv.x`. -/
def applyChunkDiff (chunk : Chunk) (diff : List Char) : Chunk :=
  (splitOnChar ';' diff).foldl
    (fun c record =>
      let keyVal := splitOnChar ':' record
      let kv0 := keyVal.getD 0 []
      let uvx := parseIntHex kv0
      let uvy := parseIntHex (kv0.drop (jsArrIndexOf keyVal [','] + 1).toNat)
      let tv := parseIntHex (keyVal.getD 1 [])
      match uvx, uvy with
      | some x, some y => { c with tileGrid := c.tileGrid.setTile ⟨x, y⟩ (tv.getD 0) }
      | _, _ => c)
    chunk

/-- The entity-diff application loop of `loadChunk` (this one slices from
`keyVal[0].indexOf(',')`, the string indexOf).  A record whose coordinates or
id fail to parse is stored under an unreachable NaN key in the source; no
read with real coordinates observes it, modelled as a skip. -/
def applyEntityDiff (chunk : Chunk) (diff : List Char) : Chunk :=
  (splitOnChar ';' diff).foldl
    (fun c record =>
      let keyVal := splitOnChar ':' record
      let kv0 := keyVal.getD 0 []
      let uvx := parseIntHex kv0
      let uvy := parseIntHex (kv0.drop (jsStrIndexOf kv0 ',' + 1).toNat)
      let idv := strToEntityID (keyVal.getD 1 [])
      match uvx, uvy, idv with
      | some x, some y, some idVal => { c with idGrid := c.idGrid.setID ⟨x, y⟩ idVal }
      | _, _, _ => c)
    chunk

/-- `loadChunk(position, world, em)`.  Returns `some (state, some position)`
for the guarded no-op, `some (state, none)` on success, `none` when the body
throws (uninitialised entity-manager archetype, or a buffer index outside the
pool). -/
def loadChunk (position : Pos) (s : GState) : Option (GState × Option Pos) :=
  if ¬ s.cm.chunksAvailable ∨ s.cm.loaded position ∨ ¬ s.cm.inBounds position then
    some (s, some position)
  else
    let idx := s.cm.bin.getLast?.getD 0
    let bin1 := s.cm.bin.dropLast
    let chunkMap1 := objSet s.cm.chunkMap position idx
    match (if 0 ≤ idx then s.cm.chunkBuffer.get? idx.toNat else none) with
    | none => none
    | some chunk0 =>
      let rng := Chunk.hashSeed s.world.seed s.world.depth position
      let chunkStr := Chunk.toChunkString s.world.depth position
      let entityDiff := objGet s.cm.entityDiffCache chunkStr
      let chunkDiff0 := objGet s.cm.chunkDiffCache chunkStr
      let chunk1 := { chunk0 with
                        colGrid := chunk0.colGrid.clear
                        visGrid := chunk0.visGrid.clear
                        idGrid := chunk0.idGrid.reset }
      match scanCells s.world position s.em rng chunk1 entityDiff.isNone with
      | none => none
      | some (chunk2, world2, em2, _) =>
        let chunkDiff1 := match chunkDiff0 with
          | some d => some d
          | none => objGet s.storage chunkStr
        let (chunk3, cache1) := match chunkDiff1 with
          | none => (chunk2, s.cm.chunkDiffCache)
          | some d => (applyChunkDiff chunk2 d, objDelete s.cm.chunkDiffCache chunkStr)
        let (chunk4, ecache1) := match entityDiff with
          | none => (chunk3, s.cm.entityDiffCache)
          | some d => (applyEntityDiff chunk3 d, objDelete s.cm.entityDiffCache chunkStr)
        some ({ cm := { s.cm with
                          chunkMap := chunkMap1
                          bin := bin1
                          chunkBuffer := if 0 ≤ idx then s.cm.chunkBuffer.set idx.toNat chunk4
                            else s.cm.chunkBuffer
                          chunkDiffCache := cache1
                          entityDiffCache := ecache1 }
                world := world2, em := em2, storage := s.storage }, none)

/-- `unloadChunk(position, world)`: record tile diffs against the template
(skipping entity-seed template cells) and top-of-stack entity ids, cache the
diffs (tile diffs also go to localStorage), then return the slot to the free
pool and remove the map entry.  The not-loaded path alerts and returns the
position unchanged. -/
def unloadChunk (position : Pos) (s : GState) : Option (GState × Option Pos) :=
  match objGet s.cm.chunkMap position with
  | none => some (s, some position)
  | some idx =>
    match (if 0 ≤ idx then s.cm.chunkBuffer.get? idx.toNat else none) with
    | none => none
    | some chunk =>
      let worldPos := Chunk.UVToWorld position
      let diffs := Chunk.cells.foldl
        (fun (acc : List Char × List Char) p =>
          let worldTile := s.world.lookup (worldPos.x + p.x) (worldPos.y + p.y)
          let tile := (chunk.tileGrid.getTile p).getD 0
          let acc1 :=
            if ¬ TileJs.tileEntity worldTile ∧ tile ≠ worldTile then
              ((if acc.1 ≠ [] then acc.1 ++ [';'] else acc.1) ++ Chunk.toChunkDiff p tile, acc.2)
            else acc
          match chunk.idGrid.getID p with
          | some entityID =>
            (acc1.1,
             (if acc1.2 ≠ [] then acc1.2 ++ [';'] else acc1.2) ++
               intToHex p.x ++ [','] ++ intToHex p.y ++ [':'] ++ entityIDToStr entityID)
          | none => acc1)
        ([], [])
      let chunkStr := Chunk.toChunkString s.world.depth position
      let cache1 :=
        if diffs.1 ≠ [] then objSet s.cm.chunkDiffCache chunkStr diffs.1
        else s.cm.chunkDiffCache
      let storage1 :=
        if diffs.1 ≠ [] then objSet s.storage chunkStr diffs.1 else s.storage
      let ecache1 :=
        if diffs.2 ≠ [] then objSet s.cm.entityDiffCache chunkStr diffs.2
        else s.cm.entityDiffCache
      some ({ cm := { s.cm with
                        bin := s.cm.bin ++ [idx]
                        chunkMap := objDelete s.cm.chunkMap position
                        chunkDiffCache := cache1
                        entityDiffCache := ecache1 }
              world := s.world, em := s.em, storage := storage1 }, none)

/-- The UV window `[player - d, player + d]²` scanned by the load loops of
`update` (outer loop over `v`, inner over `u`). -/
def uvWindow (center : Pos) (distance : Int) : List Pos :=
  (List.range (2 * distance + 1).toNat).flatMap fun (j : Nat) =>
    (List.range (2 * distance + 1).toNat).map fun (i : Nat) =>
      (⟨center.x - distance + (i : Int), center.y - distance + (j : Int)⟩ : Pos)

/-- `update(position, world, em, force)`: recompute the player UV (this
mutation survives even the early return), no-op when unchanged and not
forced; otherwise unload every resident chunk outside the distance threshold
(over a snapshot of the keys; `strToPos ∘ posToStr` is the identity under the
tuple modelling) and then load the whole window. -/
def update (position : Pos) (force : Bool) (s : GState) : Option GState :=
  let pp := Chunk.worldToUV position
  let s1 : GState := { s with cm := { s.cm with playerPosition := pp } }
  if pp.x = s.cm.position.x ∧ pp.y = s.cm.position.y ∧ ¬ force then
    some s1
  else
    let s2 : GState := { s1 with cm := { s1.cm with position := pp } }
    let mapKeys := s2.cm.chunkMap.map (·.1)
    match mapKeys.foldlM
        (fun (acc : GState) k =>
          if ¬ acc.cm.withinDistance k then (unloadChunk k acc).map (·.1)
          else some acc) s2 with
    | none => none
    | some s3 =>
      (uvWindow s3.cm.playerPosition s3.cm.distance).foldlM
        (fun acc p => (loadChunk p acc).map (·.1)) s3

/-- `reset(position, width, height)`: clear both diff caches, return every
resident slot to the free pool, re-anchor the position.  (localStorage is
not cleared.) -/
def reset (position : Pos) (width height : Int) (cm : ChunkManager) : ChunkManager :=
  let cm1 := { cm with
                 position := Chunk.worldToUV position
                 width := Int.fdiv width Chunk.size
                 height := Int.fdiv height Chunk.size
                 entityDiffCache := []
                 chunkDiffCache := [] }
  (cm1.chunkMap.map (·.1)).foldl
    (fun acc k =>
      match objGet acc.chunkMap k with
      | some idx => { acc with bin := acc.bin ++ [idx], chunkMap := objDelete acc.chunkMap k }
      | none => acc)
    cm1

/-- `getTile(position)`. -/
def getTile (cm : ChunkManager) (position : Pos) : Option Int :=
  match cm.getChunk (Chunk.worldToUV position) with
  | none => none
  | some chunk =>
    let cw := Chunk.UVToWorld (Chunk.worldToUV position)
    chunk.tileGrid.getTile ⟨position.x - cw.x, position.y - cw.y⟩

/-- `getCollision(position)`. -/
def getCollision (cm : ChunkManager) (position : Pos) : Option Bool :=
  match cm.getChunk (Chunk.worldToUV position) with
  | none => none
  | some chunk =>
    let cw := Chunk.UVToWorld (Chunk.worldToUV position)
    some (chunk.colGrid.getBit ⟨position.x - cw.x, position.y - cw.y⟩)

/-- `getVisibility(position)`. -/
def getVisibility (cm : ChunkManager) (position : Pos) : Option Bool :=
  match cm.getChunk (Chunk.worldToUV position) with
  | none => none
  | some chunk =>
    let cw := Chunk.UVToWorld (Chunk.worldToUV position)
    some (chunk.visGrid.getBit ⟨position.x - cw.x, position.y - cw.y⟩)

/-- `getID(position)`. -/
def getID (cm : ChunkManager) (position : Pos) : Option Int :=
  match cm.getChunk (Chunk.worldToUV position) with
  | none => none
  | some chunk =>
    let cw := Chunk.UVToWorld (Chunk.worldToUV position)
    chunk.idGrid.getID ⟨position.x - cw.x, position.y - cw.y⟩

/-- Helper shared by the mutators: locate the resident chunk and its buffer
index for a world position. -/
def residentIdx (cm : ChunkManager) (position : Pos) : Option (Int × Chunk) :=
  (objGet cm.chunkMap (Chunk.worldToUV position)).bind fun idx =>
    if 0 ≤ idx then (cm.chunkBuffer.get? idx.toNat).map (fun c => (idx, c)) else none

/-- `setTile(position, tile)`: returns the tile itself as the failure
sentinel, `undefined` on success. -/
def setTile (cm : ChunkManager) (position : Pos) (tile : Int) : ChunkManager × Option Int :=
  match cm.residentIdx position with
  | none => (cm, some tile)
  | some (idx, chunk) =>
    let cw := Chunk.UVToWorld (Chunk.worldToUV position)
    let chunk1 := { chunk with
                      tileGrid := chunk.tileGrid.setTile
                        ⟨position.x - cw.x, position.y - cw.y⟩ tile }
    ({ cm with chunkBuffer := cm.chunkBuffer.set idx.toNat chunk1 }, none)

/-- `setCollision(position, state)`. -/
def setCollision (cm : ChunkManager) (position : Pos) (state : Bool) :
    ChunkManager × Option Bool :=
  match cm.residentIdx position with
  | none => (cm, some state)
  | some (idx, chunk) =>
    let cw := Chunk.UVToWorld (Chunk.worldToUV position)
    let lp : Pos := ⟨position.x - cw.x, position.y - cw.y⟩
    let chunk1 := { chunk with
                      colGrid := if state then chunk.colGrid.setBit lp
                        else chunk.colGrid.clearBit lp }
    ({ cm with chunkBuffer := cm.chunkBuffer.set idx.toNat chunk1 }, none)

/-- CODE ISSUE faithfully modelled: the source signature is
`setVisibility(position)` — the `state` parameter documented in its comment
is missing — while the body reads `state`, first in
`if (chunk === undefined) return state;` and then in `if (state === true)`.
Under the file's `"use strict"` an undeclared identifier read throws
`ReferenceError`, so every call throws (resident chunk or not) before any
mutation. -/
def setVisibility (cm : ChunkManager) (position : Pos) : Option (ChunkManager × Option Bool) :=
  match cm.getChunk (Chunk.worldToUV position) with
  | none => none
  | some _ => none

/-- `setID(position, id)`. -/
def setID (cm : ChunkManager) (position : Pos) (id : Int) : ChunkManager × Option Int :=
  match cm.residentIdx position with
  | none => (cm, some id)
  | some (idx, chunk) =>
    let cw := Chunk.UVToWorld (Chunk.worldToUV position)
    let chunk1 := { chunk with
                      idGrid := chunk.idGrid.setID ⟨position.x - cw.x, position.y - cw.y⟩ id }
    ({ cm with chunkBuffer := cm.chunkBuffer.set idx.toNat chunk1 }, none)

/-- `replaceID(position, id)`: the failure sentinel is the id itself; on
success the replaced id (or `undefined`) is returned. -/
def replaceID (cm : ChunkManager) (position : Pos) (id : Int) : ChunkManager × Option Int :=
  match cm.residentIdx position with
  | none => (cm, some id)
  | some (idx, chunk) =>
    let cw := Chunk.UVToWorld (Chunk.worldToUV position)
    let pr := chunk.idGrid.replaceID ⟨position.x - cw.x, position.y - cw.y⟩ id
    ({ cm with chunkBuffer := cm.chunkBuffer.set idx.toNat { chunk with idGrid := pr.1 } }, pr.2)

/-- `popID(position)`. -/
def popID (cm : ChunkManager) (position : Pos) : ChunkManager × Option Int :=
  match cm.residentIdx position with
  | none => (cm, none)
  | some (idx, chunk) =>
    let cw := Chunk.UVToWorld (Chunk.worldToUV position)
    let pr := chunk.idGrid.popID ⟨position.x - cw.x, position.y - cw.y⟩
    ({ cm with chunkBuffer := cm.chunkBuffer.set idx.toNat { chunk with idGrid := pr.1 } }, pr.2)

end ChunkManager


/-! ## Point queries and mutators on non-resident chunks -/

/-- A freshly constructed manager (nothing resident). -/
def cmFresh : ChunkManager := ChunkManager.new ⟨0, 0⟩ 32 32 1


/-! ## Derived notions used by the chunk-scan theorems -/

/-- The world coordinates covered by the chunk at UV `uv`. -/
def inWindow (uv : Pos) (x y : Int) : Prop :=
  16 * uv.x ≤ x ∧ x < 16 * uv.x + 16 ∧ 16 * uv.y ≤ y ∧ y < 16 * uv.y + 16

/-- The tile byte the template scan stores for local cell `q` of the chunk
whose world origin is `wp`: entity-seed tiles are replaced by the world's
default tile, and the typed-array write keeps the low 8 bits. -/
def scanExpected (w : World) (wp q : Pos) : Int :=
  let tile := w.lookup (wp.x + q.x) (wp.y + q.y)
  (if TileJs.tileEntity tile then w.defaultTile else tile) % 256

/-- The tile-diff `loadChunk` resolves for a position: the cached diff when
present, else the persisted one. -/
def chunkDiffRes (s : GState) (position : Pos) : Option (List Char) :=
  match objGet s.cm.chunkDiffCache (Chunk.toChunkString s.world.depth position) with
  | some d => some d
  | none => objGet s.storage (Chunk.toChunkString s.world.depth position)

/-- Two chunks that agree everywhere except possibly on stale tile bytes. -/
def ChunkCompat (c1 c2 : Chunk) : Prop :=
  c1.visGrid = c2.visGrid ∧ c1.colGrid = c2.colGrid ∧ c1.idGrid = c2.idGrid ∧
  c1.tileGrid.width = c2.tileGrid.width ∧
  c1.tileGrid.data.length = c2.tileGrid.data.length

/-- The buffer-pool bookkeeping invariant: resident UVs are unique, the free
list and the resident indices are jointly duplicate-free, and together they
exactly cover the buffer index range `[0, maxChunks)`. -/
def Conservation (cm : ChunkManager) : Prop :=
  0 ≤ cm.maxChunks ∧
  (cm.chunkMap.map (·.1)).Nodup ∧
  (cm.bin ++ cm.chunkMap.map (·.2)).Nodup ∧
  (∀ i ∈ cm.bin ++ cm.chunkMap.map (·.2), 0 ≤ i ∧ i < cm.maxChunks) ∧
  (∀ n : Nat, (n : Int) < cm.maxChunks → (n : Int) ∈ cm.bin ++ cm.chunkMap.map (·.2))

/-! ## The chunk-diff round trip at local (3, 5) (the C1 scenario) -/

/-- The world of the round-trip scenario: empty overrides, default floor. -/
def c1World : World := World.new 1 0

/-- The baseline chunk the empty world generates: every tile byte is the
default floor tile `1`. -/
def c1BaseChunk : Chunk := { Chunk.new with tileGrid := ⟨16, List.replicate 256 1⟩ }

/-- A manager with the baseline chunk resident at UV `(0, 0)` in slot 0. -/
def c1cmRes : ChunkManager :=
  { ChunkManager.new ⟨0, 0⟩ 32 32 1 with
      chunkMap := [(⟨0, 0⟩, 0)]
      bin := [8, 7, 6, 5, 4, 3, 2, 1]
      chunkBuffer := (List.replicate 9 Chunk.new).set 0 c1BaseChunk }

/-- The state after `setTile((3,5), Tile.Wall)` mutates the resident chunk. -/
def c1s0 : GState :=
  { cm := (ChunkManager.setTile c1cmRes ⟨3, 5⟩ 4).1
    world := c1World, em := EntityManager.new, storage := [] }

/-- The diff record `"3,5:4"` for the mutated cell. -/
def c1diff : List Char := ['3', ',', '5', ':', '4']

/-- The mutated chunk: tile byte 83 (= 5·16 + 3) holds 4. -/
def c1MutChunk : Chunk :=
  { Chunk.new with tileGrid := ⟨16, (List.replicate 256 1).set 83 4⟩ }

/-- The state `unloadChunk((0,0))` produces: slot 0 freed, the diff cached
and persisted. -/
def c1s1 : GState :=
  { cm := { ChunkManager.new ⟨0, 0⟩ 32 32 1 with
              chunkBuffer := (List.replicate 9 Chunk.new).set 0 c1MutChunk
              chunkDiffCache := [((0, ⟨0, 0⟩), c1diff)] }
    world := c1World, em := EntityManager.new, storage := [((0, ⟨0, 0⟩), c1diff)] }

/-! ## The seeded town scenario (the C8 scenario) -/

/-- The town world: seed 1337, depth 0, `generateTown()` applied. -/
def townWorld : World := (World.new 1337 0).generateTown.1

/-- The spawn position `generateTown()` returns. -/
def townSpawn : Pos := (World.new 1337 0).generateTown.2

/-- The scenario state: a fresh manager anchored at the spawn with render
distance 2 over the 128×128 town, a fresh entity manager, empty storage. -/
def townState : GState :=
  { cm := ChunkManager.new townSpawn 128 128 2
    world := townWorld, em := EntityManager.new, storage := [] }

/-! # Theorems -/

set_option maxRecDepth 6000

/-! ## Arithmetic facts about the 32-bit coercions -/

theorem toUint32_lt (i : Int) : toUint32 i < 2 ^ 32 := by
  unfold toUint32
  omega

theorem toUint32_natCast (n : Nat) (h : n < 2 ^ 32) : toUint32 (n : Int) = n := by
  unfold toUint32
  omega

theorem toUint32_toInt32 (i : Int) : toUint32 (toInt32 i) = toUint32 i := by
  unfold toInt32 toUint32
  split <;> omega

theorem toInt32_natCast (n : Nat) (h : n < 2 ^ 31) : toInt32 (n : Int) = n := by
  unfold toInt32 toUint32
  split <;> omega

/-- Shifting a masked value: `(x &&& (m <<< k)) >>> k = (x >>> k) &&& m`. -/
theorem and_shiftLeft_shiftRight (x m k : Nat) :
    (x &&& (m <<< k)) >>> k = (x >>> k) &&& m := by
  apply Nat.eq_of_testBit_eq
  intro j
  simp only [Nat.testBit_shiftRight, Nat.testBit_and, Nat.testBit_shiftLeft]
  have h1 : k + j - k = j := by omega
  have h2 : k ≤ k + j := Nat.le_add_right k j
  simp [h1, h2]

/-- The packed id, evaluated: for in-range inputs `createID` produces the
Int32 reinterpretation of `(255 - type) * 2^24 + idx`. -/
theorem createID_eq (type idx : Int) (ht0 : 0 ≤ type) (ht : type ≤ 255)
    (hi0 : 0 ≤ idx) (hi : idx < 2 ^ 24) :
    EntityManager.createID type idx =
      toInt32 ((2 ^ 24 * (255 - type).toNat + idx.toNat : Nat) : Int) := by
  unfold EntityManager.createID jsOr jsShl
  have h24 : toUint32 24 % 32 = 24 := by decide
  have h1 : toUint32 (0xFF - type) = (255 - type).toNat := by
    unfold toUint32; omega
  have htn : (255 - type).toNat ≤ 255 := by omega
  have h2 : (255 - type).toNat <<< 24 = 2 ^ 24 * (255 - type).toNat := by
    rw [Nat.shiftLeft_eq, Nat.mul_comm]
  have h3 : 2 ^ 24 * (255 - type).toNat < 2 ^ 32 := by omega
  have h4 : toUint32 idx = idx.toNat := by unfold toUint32; omega
  rw [h24, h1, h2, toUint32_toInt32, toUint32_natCast _ h3, h4]
  have h5 : idx.toNat < 2 ^ 24 := by omega
  rw [← Nat.mul_add_lt_is_or h5]

theorem toUint32_createID (type idx : Int) (ht0 : 0 ≤ type) (ht : type ≤ 255)
    (hi0 : 0 ≤ idx) (hi : idx < 2 ^ 24) :
    toUint32 (EntityManager.createID type idx) =
      2 ^ 24 * (255 - type).toNat + idx.toNat := by
  rw [createID_eq type idx ht0 ht hi0 hi, toUint32_toInt32, toUint32_natCast]
  omega

theorem getIDType_createID (type idx : Int) (ht0 : 0 ≤ type) (ht : type ≤ 255)
    (hi0 : 0 ≤ idx) (hi : idx < 2 ^ 24) :
    EntityManager.getIDType (EntityManager.createID type idx) = type := by
  unfold EntityManager.getIDType jsShrU jsAnd
  have h24 : toUint32 24 % 32 = 24 := by decide
  have hmask : toUint32 (jsShl 0xFF 24) = 255 <<< 24 := by decide
  rw [h24, hmask, toUint32_createID type idx ht0 ht hi0 hi, toUint32_toInt32]
  have hlt : (2 ^ 24 * (255 - type).toNat + idx.toNat) &&& (255 <<< 24) < 2 ^ 32 := by
    have : (255 <<< 24 : Nat) < 2 ^ 32 := by decide
    exact Nat.and_lt_two_pow _ this
  rw [toUint32_natCast _ hlt, and_shiftLeft_shiftRight]
  have hdiv : (2 ^ 24 * (255 - type).toNat + idx.toNat) >>> 24 = (255 - type).toNat := by
    rw [Nat.shiftRight_eq_div_pow, Nat.mul_add_div (by positivity),
      Nat.div_eq_of_lt (by omega)]
    omega
  rw [hdiv]
  have h255 : (255 : Nat) = 2 ^ 8 - 1 := by norm_num
  rw [h255, Nat.and_pow_two_sub_one_eq_mod, Nat.mod_eq_of_lt (by omega)]
  omega

theorem getIDIndex_createID (type idx : Int) (ht0 : 0 ≤ type) (ht : type ≤ 255)
    (hi0 : 0 ≤ idx) (hi : idx < 2 ^ 24) :
    EntityManager.getIDIndex (EntityManager.createID type idx) = idx := by
  unfold EntityManager.getIDIndex jsAnd
  have hnot : toUint32 (jsNot (jsShl 0xFF 24)) = 2 ^ 24 - 1 := by decide
  rw [hnot, toUint32_createID type idx ht0 ht hi0 hi,
    Nat.and_pow_two_sub_one_eq_mod, Nat.mul_add_mod, Nat.mod_eq_of_lt (by omega)]
  rw [toInt32_natCast _ (by omega)]
  omega

/-- C4: for every archetype tag `0 ≤ type ≤ 255` and slot index
`0 ≤ idx < 2^24`, decoding the packed ID recovers the inputs exactly:
`getIDType (createID type idx) = type` and
`getIDIndex (createID type idx) = idx`. -/
theorem entityID_roundtrip (type idx : Int) (ht0 : 0 ≤ type) (ht : type ≤ 255)
    (hi0 : 0 ≤ idx) (hi : idx < 2 ^ 24) :
    EntityManager.getIDType (EntityManager.createID type idx) = type ∧
    EntityManager.getIDIndex (EntityManager.createID type idx) = idx :=
  ⟨getIDType_createID type idx ht0 ht hi0 hi, getIDIndex_createID type idx ht0 ht hi0 hi⟩

/-- Witness for `entityID_roundtrip` at `(type, idx) = (4, 7)`. -/
theorem entityID_roundtrip_witness :
    (0 : Int) ≤ 4 ∧ (4 : Int) ≤ 255 ∧ (0 : Int) ≤ 7 ∧ (7 : Int) < 2 ^ 24 ∧
    (EntityManager.getIDType (EntityManager.createID 4 7) = 4 ∧
     EntityManager.getIDIndex (EntityManager.createID 4 7) = 7) :=
  ⟨by decide, by decide, by decide, by decide,
   entityID_roundtrip 4 7 (by decide) (by decide) (by decide) (by decide)⟩

/-- C5 counterexample: at `(type, idx) = (1, 0)` the claimed layout
`type = id >> 24 ∧ idx = id & 0x00FFFFFF` is false: the top byte holds
`0xFF - type`, so the signed shift yields `-2`, not `1`. -/
theorem entityID_layout_cex :
    ¬ (jsShr (EntityManager.createID 1 0) 24 = 1 ∧
       jsAnd (EntityManager.createID 1 0) 0x00FFFFFF = 0) := by
  decide

/-- C5 amended: the low 24 bits of the packed id are the slot index, but the
top 8 bits hold the complement of the archetype tag: for in-range inputs,
`type = 0xFF - (id >>> 24)` and `idx = id & 0x00FFFFFF`. -/
theorem entityID_layout (type idx : Int) (ht0 : 0 ≤ type) (ht : type ≤ 255)
    (hi0 : 0 ≤ idx) (hi : idx < 2 ^ 24) :
    type = 0xFF - jsShrU (EntityManager.createID type idx) 24 ∧
    idx = jsAnd (EntityManager.createID type idx) 0x00FFFFFF := by
  constructor
  · unfold jsShrU
    have h24 : toUint32 24 % 32 = 24 := by decide
    rw [h24, toUint32_createID type idx ht0 ht hi0 hi]
    have hdiv : (2 ^ 24 * (255 - type).toNat + idx.toNat) >>> 24 = (255 - type).toNat := by
      rw [Nat.shiftRight_eq_div_pow, Nat.mul_add_div (by positivity),
        Nat.div_eq_of_lt (by omega)]
      omega
    rw [hdiv]
    omega
  · unfold jsAnd
    have hm : toUint32 0x00FFFFFF = 2 ^ 24 - 1 := by decide
    rw [hm, toUint32_createID type idx ht0 ht hi0 hi,
      Nat.and_pow_two_sub_one_eq_mod, Nat.mul_add_mod, Nat.mod_eq_of_lt (by omega)]
    rw [toInt32_natCast _ (by omega)]
    omega

/-- Witness for `entityID_layout` at `(type, idx) = (4, 7)`. -/
theorem entityID_layout_witness :
    (0 : Int) ≤ 4 ∧ (4 : Int) ≤ 255 ∧ (0 : Int) ≤ 7 ∧ (7 : Int) < 2 ^ 24 ∧
    ((4 : Int) = 0xFF - jsShrU (EntityManager.createID 4 7) 24 ∧
     (7 : Int) = jsAnd (EntityManager.createID 4 7) 0x00FFFFFF) :=
  ⟨by decide, by decide, by decide, by decide,
   entityID_layout 4 7 (by decide) (by decide) (by decide) (by decide)⟩

/-! ## Array access lemmas for the entity manager -/

theorem jsGetArr_ent_bounds {arr : List JSVal} {i : Int} {e : Entity}
    (h : jsGetArr arr i = .ent e) : 0 ≤ i ∧ i.toNat < arr.length := by
  unfold jsGetArr at h
  split at h
  · simp at h
  · refine ⟨by omega, ?_⟩
    by_contra hlen
    rw [List.getD_eq_getElem?_getD, List.getElem?_eq_none (by omega)] at h
    simp at h

theorem jsSetArr_length {arr : List JSVal} {i : Int} (v : JSVal)
    (h0 : 0 ≤ i) (hlen : i.toNat < arr.length) :
    (jsSetArr arr i v).length = arr.length := by
  unfold jsSetArr
  rw [if_neg (by omega), if_pos hlen, List.length_set]

theorem jsGetArr_jsSetArr_self {arr : List JSVal} {i : Int} (v : JSVal)
    (h0 : 0 ≤ i) (hlen : i.toNat < arr.length) :
    jsGetArr (jsSetArr arr i v) i = v := by
  unfold jsGetArr jsSetArr
  rw [if_neg (by omega), if_pos hlen, List.getD_eq_getElem?_getD,
    if_neg (by omega), List.getElem?_set_self (by simpa using hlen)]
  rfl

/-- C10: removing or deleting an ID whose archetype array is initialised but
whose slot holds no live entity returns `undefined` and leaves the manager
completely unchanged. -/
theorem remove_delete_empty_slot_noop (em : EntityManager) (id : Int) (arr : List JSVal)
    (hdata : em.data (EntityManager.getIDType id) = some arr)
    (hslot : (jsGetArr arr (EntityManager.getIDIndex id)).isEnt = false) :
    em.remove id = some (em, none) ∧ em.delete id = some (em, none) := by
  cases h : jsGetArr arr (EntityManager.getIDIndex id) with
  | ent e => rw [h] at hslot; simp [JSVal.isEnt] at hslot
  | undefined => constructor <;> simp [EntityManager.remove, EntityManager.delete, hdata, h]
  | null => constructor <;> simp [EntityManager.remove, EntityManager.delete, hdata, h]

/-- Witness for `remove_delete_empty_slot_noop` on a fresh manager and the ID
of archetype 1, slot 0. -/
theorem remove_delete_empty_slot_noop_witness :
    EntityManager.new.data (EntityManager.getIDType (EntityManager.createID 1 0)) = some [] ∧
    (jsGetArr [] (EntityManager.getIDIndex (EntityManager.createID 1 0))).isEnt = false ∧
    (EntityManager.new.remove (EntityManager.createID 1 0) = some (EntityManager.new, none) ∧
     EntityManager.new.delete (EntityManager.createID 1 0) = some (EntityManager.new, none)) :=
  ⟨by decide, by decide,
   remove_delete_empty_slot_noop EntityManager.new (EntityManager.createID 1 0) []
     (by decide) (by decide)⟩

/-- C3 amended: deleting the entity at slot `i` of archetype `t` and inserting
a new entity carrying the same archetype tag reuses the freed index `i`
(LIFO free-list reuse) — but the packed id of the new entity coincides with
the deleted entity id, so `lookup` on the old ID returns the new entity
rather than a "not found" result. -/
theorem slot_reuse_alias (em : EntityManager) (t i : Int) (arr : List JSVal)
    (binT : List Int) (eOld eNew : Entity)
    (ht0 : 0 ≤ t) (ht : t ≤ 255) (hi0 : 0 ≤ i) (hi : i < 2 ^ 24)
    (hdata : em.data t = some arr) (hbin : em.bin t = some binT)
    (hslot : jsGetArr arr i = .ent eOld)
    (hnew : EntityManager.getIDType eNew.id = t) :
    em.delete (EntityManager.createID t i) =
      some (emAfterDelete em t i arr binT, some (EntityManager.createID t i)) ∧
    (emAfterDelete em t i arr binT).insert eNew =
      some (emAfterReinsert em t i arr binT eNew, EntityManager.createID t i) ∧
    EntityManager.getIDIndex (EntityManager.createID t i) = i ∧
    (emAfterReinsert em t i arr binT eNew).lookup (EntityManager.createID t i) =
      some (.ent (eNew.withId (EntityManager.createID t i))) := by
  have hT := getIDType_createID t i ht0 ht hi0 hi
  have hI := getIDIndex_createID t i ht0 ht hi0 hi
  obtain ⟨hi0n, hlen⟩ := jsGetArr_ent_bounds hslot
  refine ⟨?_, ?_, hI, ?_⟩
  · simp only [EntityManager.delete, hT, hI, hdata, hslot, hbin, emAfterDelete]
  · simp only [EntityManager.insert, hnew, emAfterDelete, emAfterReinsert,
      if_pos rfl, List.length_append, List.length_singleton, List.getLast?_concat,
      Option.getD_some]
    simp
  · have hlen2 : i.toNat < (jsSetArr arr i .null).length := by
      rw [jsSetArr_length _ hi0n hlen]; exact hlen
    simp [EntityManager.lookup, hT, hI, emAfterReinsert, emAfterDelete,
      jsGetArr_jsSetArr_self _ hi0n hlen2]

/-- C3 counterexample: after delete-then-reinsert of archetype 1, the new
entity does reuse the freed slot 0, but `lookup` on the old ID returns the
new entity (`raw _ 1`) — not a "not found" result — refuting the claim's
second conjunct at this input. -/
theorem slot_reuse_stale_lookup_cex :
    emC3end.map (fun p => EntityManager.getIDIndex p.2) = some 0 ∧
    emC3end.bind (fun p => p.1.lookup (EntityManager.createID 1 0)) =
      some (.ent (.raw (EntityManager.createID 1 0) 1)) ∧
    ¬ (emC3end.bind (fun p => p.1.lookup (EntityManager.createID 1 0)) = some .null ∨
       emC3end.bind (fun p => p.1.lookup (EntityManager.createID 1 0)) = some .undefined ∨
       emC3end.bind (fun p => p.1.lookup (EntityManager.createID 1 0)) = none) := by
  refine ⟨by decide, by decide, ?_⟩
  intro h
  rcases h with h | h | h <;> revert h <;> decide

/-- Witness for `slot_reuse_alias` at the concrete manager `emC3start`,
archetype 1, slot 0. -/
theorem slot_reuse_alias_witness :
    emC3start.data 1 = some [.ent (.raw (EntityManager.createID 1 0) 0)] ∧
    emC3start.bin 1 = some [] ∧
    jsGetArr [.ent (.raw (EntityManager.createID 1 0) 0)] 0 = .ent (.raw (EntityManager.createID 1 0) 0) ∧
    (emC3start.delete (EntityManager.createID 1 0) =
       some (emAfterDelete emC3start 1 0 [.ent (.raw (EntityManager.createID 1 0) 0)] [],
             some (EntityManager.createID 1 0)) ∧
     (emAfterDelete emC3start 1 0 [.ent (.raw (EntityManager.createID 1 0) 0)] []).insert
         (.raw (EntityManager.createID 1 0) 1) =
       some (emAfterReinsert emC3start 1 0 [.ent (.raw (EntityManager.createID 1 0) 0)] []
               (.raw (EntityManager.createID 1 0) 1),
             EntityManager.createID 1 0) ∧
     EntityManager.getIDIndex (EntityManager.createID 1 0) = 0 ∧
     (emAfterReinsert emC3start 1 0 [.ent (.raw (EntityManager.createID 1 0) 0)] []
         (.raw (EntityManager.createID 1 0) 1)).lookup (EntityManager.createID 1 0) =
       some (.ent ((Entity.raw (EntityManager.createID 1 0) 1).withId (EntityManager.createID 1 0)))) :=
  ⟨by decide, by decide, by decide,
   slot_reuse_alias emC3start 1 0 [.ent (.raw (EntityManager.createID 1 0) 0)] []
     (.raw (EntityManager.createID 1 0) 0) (.raw (EntityManager.createID 1 0) 1)
     (by decide) (by decide) (by decide) (by decide)
     (by decide) (by decide) (by decide) (by decide)⟩

/-! ## Laws of the JS object maps -/

theorem objGet_cons {κ α : Type} [DecidableEq κ] (e : κ × α) (rest : List (κ × α)) (q : κ) :
    objGet (e :: rest) q = if e.1 = q then some e.2 else objGet rest q := by
  by_cases h : e.1 = q
  · simp [objGet, List.find?, h]
  · simp [objGet, List.find?, h]

theorem objGet_objSet_self {κ α : Type} [DecidableEq κ] (m : List (κ × α)) (k : κ) (v : α) :
    objGet (objSet m k v) k = some v := by
  induction m with
  | nil => simp [objSet, objGet_cons]
  | cons e rest ih =>
    by_cases h : e.1 = k
    · simp [objSet, h, objGet_cons]
    · simp only [objSet, if_neg h]
      rw [objGet_cons, if_neg h]
      exact ih

theorem objGet_objSet_ne {κ α : Type} [DecidableEq κ] (m : List (κ × α)) (k q : κ) (v : α)
    (hq : q ≠ k) : objGet (objSet m k v) q = objGet m q := by
  induction m with
  | nil => simp [objSet, objGet_cons, objGet, Ne.symm hq]
  | cons e rest ih =>
    by_cases h : e.1 = k
    · simp only [objSet, if_pos h]
      rw [objGet_cons, objGet_cons, if_neg (by simpa using Ne.symm hq), if_neg (h ▸ Ne.symm hq)]
    · simp only [objSet, if_neg h]
      rw [objGet_cons, objGet_cons]
      by_cases h2 : e.1 = q
      · simp [h2]
      · simp only [if_neg h2]
        exact ih

theorem objGet_objDelete_self {κ α : Type} [DecidableEq κ] (m : List (κ × α)) (k : κ) :
    objGet (objDelete m k) k = none := by
  induction m with
  | nil => simp [objDelete, objGet]
  | cons e rest ih =>
    simp only [objDelete] at ih ⊢
    by_cases h : e.1 = k
    · rw [List.filter_cons_of_neg (by simp [h])]
      exact ih
    · rw [List.filter_cons_of_pos (by simp [h]), objGet_cons, if_neg h]
      exact ih

theorem objGet_objDelete_ne {κ α : Type} [DecidableEq κ] (m : List (κ × α)) (k q : κ)
    (hq : q ≠ k) : objGet (objDelete m k) q = objGet m q := by
  induction m with
  | nil => simp [objDelete]
  | cons e rest ih =>
    simp only [objDelete] at ih ⊢
    by_cases h : e.1 = k
    · have h2 : e.1 ≠ q := fun he => hq (by rw [← he]; exact h)
      rw [List.filter_cons_of_neg (by simp [h]), objGet_cons, if_neg h2]
      exact ih
    · rw [List.filter_cons_of_pos (by simp [h]), objGet_cons, objGet_cons]
      by_cases h2 : e.1 = q
      · simp [h2]
      · simp only [if_neg h2]
        exact ih

/-- C7: `lookup` returns the stored override when one is present and
`defaultTile` otherwise, and the two override mutators behave as specified —
after `insert(tile, x, y)` the lookup at `(x, y)` yields `tile`, and after
`delete(x, y)` (modelled from the spec; absent from `src/`) it reverts to
`defaultTile` — while every other coordinate is untouched by either. -/
theorem world_override_laws (w : World) (tile : Int) (x y xq yq : Int) :
    World.lookup w xq yq = (objGet w.tiles ⟨xq, yq⟩).getD w.defaultTile ∧
    World.lookup (World.insert w tile x y) xq yq =
      (if xq = x ∧ yq = y then tile else World.lookup w xq yq) ∧
    World.lookup (World.delete w x y) xq yq =
      (if xq = x ∧ yq = y then w.defaultTile else World.lookup w xq yq) := by
  refine ⟨rfl, ?_, ?_⟩
  · by_cases h : xq = x ∧ yq = y
    · obtain ⟨hx, hy⟩ := h
      subst hx; subst hy
      simp [World.lookup, World.insert, objGet_objSet_self]
    · have hne : (⟨xq, yq⟩ : Pos) ≠ ⟨x, y⟩ := by
        intro he
        cases he
        exact h ⟨rfl, rfl⟩
      simp [World.lookup, World.insert, objGet_objSet_ne _ _ _ _ hne, h]
  · by_cases h : xq = x ∧ yq = y
    · obtain ⟨hx, hy⟩ := h
      subst hx; subst hy
      simp [World.lookup, World.delete, objGet_objDelete_self]
    · have hne : (⟨xq, yq⟩ : Pos) ≠ ⟨x, y⟩ := by
        intro he
        cases he
        exact h ⟨rfl, rfl⟩
      simp [World.lookup, World.delete, objGet_objDelete_ne _ _ _ hne, h]

/-- C9 evaluation at the failing input: on a manager whose chunk for
`(0, 0)` is not resident, the four point queries return the `undefined`
sentinel and the mutators `setTile`/`setCollision`/`setID`/`replaceID`/
`popID` return their sentinel without modifying any state — but
`setVisibility`, whose source signature lost its `state` parameter, throws
`ReferenceError` (modelled as `none`) instead of returning a sentinel. -/
theorem nonresident_ops_cex :
    ChunkManager.getTile cmFresh ⟨0, 0⟩ = none ∧
    ChunkManager.getCollision cmFresh ⟨0, 0⟩ = none ∧
    ChunkManager.getVisibility cmFresh ⟨0, 0⟩ = none ∧
    ChunkManager.getID cmFresh ⟨0, 0⟩ = none ∧
    ChunkManager.setTile cmFresh ⟨0, 0⟩ 5 = (cmFresh, some 5) ∧
    ChunkManager.setCollision cmFresh ⟨0, 0⟩ true = (cmFresh, some true) ∧
    ChunkManager.setID cmFresh ⟨0, 0⟩ 9 = (cmFresh, some 9) ∧
    ChunkManager.replaceID cmFresh ⟨0, 0⟩ 9 = (cmFresh, some 9) ∧
    ChunkManager.popID cmFresh ⟨0, 0⟩ = (cmFresh, none) ∧
    ChunkManager.setVisibility cmFresh ⟨0, 0⟩ = none := by
  decide

/-! ## Point laws of the tile grid -/

theorem TileGrid.width_setTile (g : TileGrid) (p : Pos) (t : Int) :
    (g.setTile p t).width = g.width := by
  unfold TileGrid.setTile
  split <;> rfl

theorem TileGrid.length_setTile (g : TileGrid) (p : Pos) (t : Int) :
    (g.setTile p t).data.length = g.data.length := by
  unfold TileGrid.setTile
  split
  · simp
  · rfl

theorem TileGrid.getTile_setTile_self (g : TileGrid) (p : Pos) (t : Int)
    (h0 : 0 ≤ p.y * g.width + p.x) (hlt : (p.y * g.width + p.x).toNat < g.data.length) :
    (g.setTile p t).getTile p = some (t % 256) := by
  have hset : g.setTile p t =
      { g with data := g.data.set (p.y * g.width + p.x).toNat (t % 256).toNat } := by
    unfold TileGrid.setTile
    rw [if_pos ⟨h0, hlt⟩]
  rw [hset]
  unfold TileGrid.getTile
  dsimp only
  rw [if_pos ⟨h0, by simpa using hlt⟩, List.getD_eq_getElem?_getD, List.getElem?_set_self hlt]
  have hv : ((t % 256).toNat : Int) = t % 256 := by omega
  simp [hv]

theorem TileGrid.getTile_setTile_ne (g : TileGrid) (p q : Pos) (t : Int)
    (hne : p.y * g.width + p.x ≠ q.y * g.width + q.x) :
    (g.setTile p t).getTile q = g.getTile q := by
  unfold TileGrid.getTile TileGrid.setTile
  by_cases hp : 0 ≤ p.y * g.width + p.x ∧ (p.y * g.width + p.x).toNat < g.data.length
  · rw [if_pos hp]
    simp only [List.length_set]
    by_cases hq : 0 ≤ q.y * g.width + q.x ∧ (q.y * g.width + q.x).toNat < g.data.length
    · rw [if_pos hq, if_pos hq, List.getD_eq_getElem?_getD, List.getD_eq_getElem?_getD,
        List.getElem?_set_ne (by omega)]
    · rw [if_neg hq, if_neg hq]
  · rw [if_neg hp]

/-! ## Point laws of world lookups after override mutation -/

theorem World.lookup_delete_ne (w : World) (a b x y : Int) (h : ¬(x = a ∧ y = b)) :
    (w.delete a b).lookup x y = w.lookup x y := by
  have hne : (⟨x, y⟩ : Pos) ≠ ⟨a, b⟩ := by
    intro he
    cases he
    exact h ⟨rfl, rfl⟩
  simp [World.lookup, World.delete, objGet_objDelete_ne _ _ _ hne]

/-! ## The 16×16 cell traversal -/

theorem mem_cells (p : Pos) :
    p ∈ Chunk.cells ↔ 0 ≤ p.x ∧ p.x < 16 ∧ 0 ≤ p.y ∧ p.y < 16 := by
  obtain ⟨px, py⟩ := p
  show _ ∈ _ ↔ 0 ≤ px ∧ px < 16 ∧ 0 ≤ py ∧ py < 16
  have hs : Chunk.size.toNat = 16 := rfl
  rw [Chunk.cells, hs, List.mem_flatMap]
  constructor
  · rintro ⟨y, hy, hmem⟩
    rw [List.mem_map] at hmem
    obtain ⟨x, hx, he⟩ := hmem
    rw [List.mem_range] at hy hx
    rw [Pos.mk.injEq] at he
    omega
  · rintro ⟨h1, h2, h3, h4⟩
    refine ⟨py.toNat, ?_, ?_⟩
    · rw [List.mem_range]
      omega
    · rw [List.mem_map]
      refine ⟨px.toNat, ?_, ?_⟩
      · rw [List.mem_range]
        omega
      · rw [Pos.mk.injEq]
        constructor <;> omega

theorem cells_nodup : Chunk.cells.Nodup := by decide

theorem cell_idx_inj (p q : Pos) (hp : 0 ≤ p.x ∧ p.x < 16 ∧ 0 ≤ p.y ∧ p.y < 16)
    (hq : 0 ≤ q.x ∧ q.x < 16 ∧ 0 ≤ q.y ∧ q.y < 16)
    (h : p.y * 16 + p.x = q.y * 16 + q.x) : p = q := by
  obtain ⟨px, py⟩ := p
  obtain ⟨qx, qy⟩ := q
  simp only at hp hq h
  simp only [Pos.mk.injEq]
  constructor <;> omega

/-! ## The template scan, characterised for door-free windows -/

theorem loadCell_nodoor (wp p : Pos) (ch : Chunk) (w : World) (em : EntityManager) (rng : Int)
    (hnd : w.lookup (wp.x + p.x) (wp.y + p.y) ≠ TileJs.TileClosedDoor) :
    ∃ ch1 w1,
      ChunkManager.loadCell wp true (ch, w, em, rng) p = some (ch1, w1, em, rng) ∧
      ch1.tileGrid = ch.tileGrid.setTile p
        (if TileJs.tileEntity (w.lookup (wp.x + p.x) (wp.y + p.y)) then w.defaultTile
         else w.lookup (wp.x + p.x) (wp.y + p.y)) ∧
      (∀ x y : Int, ¬(x = wp.x + p.x ∧ y = wp.y + p.y) → w1.lookup x y = w.lookup x y) ∧
      w1.defaultTile = w.defaultTile := by
  by_cases hE : TileJs.tileEntity (w.lookup (wp.x + p.x) (wp.y + p.y))
  · by_cases hC : TileJs.tileCollision (w.lookup (wp.x + p.x) (wp.y + p.y))
    · refine ⟨{ ch with tileGrid := ch.tileGrid.setTile p w.defaultTile,
                        colGrid := ch.colGrid.setBit p },
        w.delete (wp.x + p.x) (wp.y + p.y), ?_, by rw [if_pos hE], ?_, rfl⟩
      · simp [ChunkManager.loadCell, ChunkManager.generateEntity, hnd, hE, hC]
        rfl
      · intro x y hxy
        exact World.lookup_delete_ne w _ _ x y hxy
    · refine ⟨{ ch with tileGrid := ch.tileGrid.setTile p w.defaultTile },
        w.delete (wp.x + p.x) (wp.y + p.y), ?_, by rw [if_pos hE], ?_, rfl⟩
      · simp [ChunkManager.loadCell, ChunkManager.generateEntity, hnd, hE, hC]
        rfl
      · intro x y hxy
        exact World.lookup_delete_ne w _ _ x y hxy
  · by_cases hC : TileJs.tileCollision (w.lookup (wp.x + p.x) (wp.y + p.y))
    · refine ⟨{ ch with
          tileGrid := ch.tileGrid.setTile p (w.lookup (wp.x + p.x) (wp.y + p.y)),
          colGrid := ch.colGrid.setBit p },
        w, ?_, by rw [if_neg hE], fun x y _ => rfl, rfl⟩
      simp [ChunkManager.loadCell, hE, hC]
    · refine ⟨{ ch with
          tileGrid := ch.tileGrid.setTile p (w.lookup (wp.x + p.x) (wp.y + p.y)) },
        w, ?_, by rw [if_neg hE], fun x y _ => rfl, rfl⟩
      simp [ChunkManager.loadCell, hE, hC]

theorem scanFold_nodoor (wp : Pos) (cs : List Pos) :
    ∀ (ch : Chunk) (w : World) (em : EntityManager) (rng : Int),
      ch.tileGrid.width = 16 → ch.tileGrid.data.length = 256 →
      (∀ p ∈ cs, 0 ≤ p.x ∧ p.x < 16 ∧ 0 ≤ p.y ∧ p.y < 16) →
      cs.Nodup →
      (∀ p ∈ cs, w.lookup (wp.x + p.x) (wp.y + p.y) ≠ TileJs.TileClosedDoor) →
      ∃ ch' w',
        cs.foldlM (ChunkManager.loadCell wp true) (ch, w, em, rng) = some (ch', w', em, rng) ∧
        ch'.tileGrid.width = 16 ∧ ch'.tileGrid.data.length = 256 ∧
        (∀ q ∈ cs, ch'.tileGrid.getTile q = some (scanExpected w wp q)) ∧
        (∀ q : Pos, 0 ≤ q.x ∧ q.x < 16 ∧ 0 ≤ q.y ∧ q.y < 16 → q ∉ cs →
          ch'.tileGrid.getTile q = ch.tileGrid.getTile q) ∧
        (∀ x y : Int, (∀ p ∈ cs, ¬(x = wp.x + p.x ∧ y = wp.y + p.y)) →
          w'.lookup x y = w.lookup x y) ∧
        w'.defaultTile = w.defaultTile := by
  induction cs with
  | nil =>
    intro ch w em rng hwid hlen _ _ _
    exact ⟨ch, w, rfl, hwid, hlen, by simp, fun q _ _ => rfl, fun x y _ => rfl, rfl⟩
  | cons p cs ih =>
    intro ch w em rng hwid hlen hin hnodup hdoor
    have hp := hin p (List.mem_cons_self p cs)
    have hpcs : p ∉ cs := (List.nodup_cons.mp hnodup).1
    obtain ⟨ch1, w1, hstep, htg, hwpres, hwdef⟩ :=
      loadCell_nodoor wp p ch w em rng (hdoor p (List.mem_cons_self p cs))
    have hwid1 : ch1.tileGrid.width = 16 := by
      rw [htg, TileGrid.width_setTile, hwid]
    have hlen1 : ch1.tileGrid.data.length = 256 := by
      rw [htg, TileGrid.length_setTile, hlen]
    have hcoordne : ∀ q ∈ cs, ¬(wp.x + q.x = wp.x + p.x ∧ wp.y + q.y = wp.y + p.y) := by
      intro q hq hcontra
      apply hpcs
      have hqe : q = p := by
        obtain ⟨qx, qy⟩ := q
        obtain ⟨px, py⟩ := p
        rw [Pos.mk.injEq]
        obtain ⟨h1, h2⟩ := hcontra
        constructor <;> (dsimp only at h1 h2; omega)
      rwa [hqe] at hq
    have hdoor1 : ∀ q ∈ cs, w1.lookup (wp.x + q.x) (wp.y + q.y) ≠ TileJs.TileClosedDoor := by
      intro q hq
      rw [hwpres _ _ (hcoordne q hq)]
      exact hdoor q (List.mem_cons_of_mem p hq)
    obtain ⟨ch', w', hfold, hwid', hlen', htiles, hpres, hwpres', hwdef'⟩ :=
      ih ch1 w1 em rng hwid1 hlen1 (fun q hq => hin q (List.mem_cons_of_mem p hq))
        (List.nodup_cons.mp hnodup).2 hdoor1
    refine ⟨ch', w', ?_, hwid', hlen', ?_, ?_, ?_, ?_⟩
    · rw [List.foldlM_cons, hstep]
      exact hfold
    · intro q hq
      rcases List.mem_cons.mp hq with rfl | hq'
      · rw [hpres q hp hpcs, htg, TileGrid.getTile_setTile_self]
        · rw [scanExpected]
        · rw [hwid]
          omega
        · rw [hwid, hlen]
          omega
      · rw [htiles q hq']
        have hlkq : w1.lookup (wp.x + q.x) (wp.y + q.y) = w.lookup (wp.x + q.x) (wp.y + q.y) :=
          hwpres _ _ (hcoordne q hq')
        rw [scanExpected, scanExpected, hlkq, hwdef]
    · intro q hqb hqn
      have hqp : q ≠ p := fun he => hqn (he ▸ List.mem_cons_self p cs)
      rw [hpres q hqb (fun h => hqn (List.mem_cons_of_mem p h)), htg,
        TileGrid.getTile_setTile_ne]
      rw [hwid]
      intro hidx
      exact hqp (cell_idx_inj p q hp hqb hidx).symm
    · intro x y hxy
      rw [hwpres' x y (fun p' hp' => hxy p' (List.mem_cons_of_mem p hp')),
        hwpres x y (hxy p (List.mem_cons_self p cs))]
    · rw [hwdef', hwdef]

theorem inWindow_of_cell (uv q : Pos) (hq : 0 ≤ q.x ∧ q.x < 16 ∧ 0 ≤ q.y ∧ q.y < 16) :
    inWindow uv ((Chunk.UVToWorld uv).x + q.x) ((Chunk.UVToWorld uv).y + q.y) := by
  obtain ⟨u, v⟩ := uv
  obtain ⟨qx, qy⟩ := q
  dsimp only at hq
  rw [inWindow, Chunk.UVToWorld]
  show 16 * u ≤ u * 16 + qx ∧ u * 16 + qx < 16 * u + 16 ∧
    16 * v ≤ v * 16 + qy ∧ v * 16 + qy < 16 * v + 16
  omega

theorem scanCells_nodoor (w : World) (uv : Pos) (em : EntityManager) (rng : Int) (ch : Chunk)
    (hwid : ch.tileGrid.width = 16) (hlen : ch.tileGrid.data.length = 256)
    (hnd : ∀ x y : Int, inWindow uv x y → w.lookup x y ≠ TileJs.TileClosedDoor) :
    ∃ ch' w',
      ChunkManager.scanCells w uv em rng ch true = some (ch', w', em, rng) ∧
      ch'.tileGrid.width = 16 ∧ ch'.tileGrid.data.length = 256 ∧
      (∀ q ∈ Chunk.cells, ch'.tileGrid.getTile q = some (scanExpected w (Chunk.UVToWorld uv) q)) ∧
      (∀ x y : Int, ¬ inWindow uv x y → w'.lookup x y = w.lookup x y) ∧
      w'.defaultTile = w.defaultTile := by
  obtain ⟨ch', w', h1, h2, h3, h4, _, h6, h7⟩ :=
    scanFold_nodoor (Chunk.UVToWorld uv) Chunk.cells ch w em rng hwid hlen
      (fun p hp => (mem_cells p).mp hp)
      cells_nodup
      (fun p hp => hnd _ _ (inWindow_of_cell uv p ((mem_cells p).mp hp)))
  refine ⟨ch', w', h1, h2, h3, h4, ?_, h7⟩
  intro x y hxy
  refine h6 x y ?_
  intro p hp hco
  obtain ⟨hc1, hc2⟩ := hco
  rw [hc1, hc2] at hxy
  exact hxy (inWindow_of_cell uv p ((mem_cells p).mp hp))

theorem loadChunk_spec (position : Pos) (s : GState) (idx : Int) (chunk0 : Chunk)
    (hava : s.cm.chunksAvailable = true)
    (hnl : objGet s.cm.chunkMap position = none)
    (hib : s.cm.inBounds position = true)
    (hlast : s.cm.bin.getLast? = some idx)
    (hge : 0 ≤ idx)
    (hbuf : s.cm.chunkBuffer.get? idx.toNat = some chunk0)
    (hwid : chunk0.tileGrid.width = 16)
    (hlen : chunk0.tileGrid.data.length = 256)
    (hed : objGet s.cm.entityDiffCache (Chunk.toChunkString s.world.depth position) = none)
    (hnd : ∀ x y : Int, inWindow position x y → s.world.lookup x y ≠ TileJs.TileClosedDoor) :
    ∃ ch' w',
      ChunkManager.loadChunk position s = some
        ({ cm := { s.cm with
                     chunkMap := objSet s.cm.chunkMap position idx
                     bin := s.cm.bin.dropLast
                     chunkBuffer := s.cm.chunkBuffer.set idx.toNat
                       (match chunkDiffRes s position with
                        | none => ch'
                        | some d => ChunkManager.applyChunkDiff ch' d)
                     chunkDiffCache :=
                       match chunkDiffRes s position with
                       | none => s.cm.chunkDiffCache
                       | some _ => objDelete s.cm.chunkDiffCache
                           (Chunk.toChunkString s.world.depth position) }
           world := w', em := s.em, storage := s.storage }, none) ∧
      ch'.tileGrid.width = 16 ∧ ch'.tileGrid.data.length = 256 ∧
      (∀ q ∈ Chunk.cells,
        ch'.tileGrid.getTile q = some (scanExpected s.world (Chunk.UVToWorld position) q)) ∧
      (∀ x y : Int, ¬ inWindow position x y → w'.lookup x y = s.world.lookup x y) ∧
      w'.defaultTile = s.world.defaultTile := by
  obtain ⟨ch', w', hscan, hwid', hlen', htiles, hwp, hwd⟩ :=
    scanCells_nodoor s.world position s.em
      (Chunk.hashSeed s.world.seed s.world.depth position)
      ({ chunk0 with colGrid := chunk0.colGrid.clear, visGrid := chunk0.visGrid.clear, idGrid := chunk0.idGrid.reset }) hwid hlen hnd
  refine ⟨ch', w', ?_, hwid', hlen', htiles, hwp, hwd⟩
  unfold ChunkManager.loadChunk
  rw [if_neg (by simp [hava, hib, ChunkManager.loaded, hnl])]
  simp only [hlast, Option.getD_some]
  rw [if_pos hge]
  simp only [hbuf, hed, Option.isNone_none, hscan, chunkDiffRes]
  rcases hcd : objGet s.cm.chunkDiffCache (Chunk.toChunkString s.world.depth position) with _ | d
  · rcases hst : objGet s.storage (Chunk.toChunkString s.world.depth position) with _ | d2
    · simp [hcd, hst, hge]
    · simp [hcd, hst, hge]
  · simp [hcd, hge]

/-! ## The diff round trip (C1): helpers and evaluation -/

theorem applyChunkDiff_c1diff (c : Chunk) :
    ChunkManager.applyChunkDiff c c1diff =
      { c with tileGrid := c.tileGrid.setTile ⟨3, 3⟩ 4 } := rfl

theorem getTile_resident (cm : ChunkManager) (pos : Pos) (idx : Int) (ch : Chunk)
    (hmap : objGet cm.chunkMap (Chunk.worldToUV pos) = some idx)
    (hge : 0 ≤ idx)
    (hbuf : cm.chunkBuffer.get? idx.toNat = some ch) :
    cm.getTile pos = ch.tileGrid.getTile
      ⟨pos.x - (Chunk.UVToWorld (Chunk.worldToUV pos)).x,
       pos.y - (Chunk.UVToWorld (Chunk.worldToUV pos)).y⟩ := by
  unfold ChunkManager.getTile ChunkManager.getChunk
  rw [hmap, Option.some_bind, if_pos hge, hbuf]

/-- C1: the diff round trip misapplies the recorded mutation.  In the
concrete scenario `c1s0` — the chunk at UV `(0,0)` of an empty world is
resident with its all-floor baseline and its tile at local `(3,5)` has been
mutated to `4` via `setTile` — `unloadChunk` records exactly the diff record
`"3,5:4"` for that cell (cached and persisted), but the subsequent
`loadChunk` hands the reloaded chunk a tile of `4` at local `(3,3)` and the
untouched baseline `1` at the mutated cell `(3,5)`: the y-coordinate of a
diff record is parsed with `Array.prototype.indexOf`, which returns `-1`, so
`uv.y` re-parses the `"x,y"` prefix and collapses to `uv.x`, refuting the
claimed round trip. -/
theorem diff_roundtrip_misapplied_cex :
    ChunkManager.unloadChunk ⟨0, 0⟩ c1s0 = some (c1s1, none) ∧
    objGet c1s1.cm.chunkDiffCache (0, ⟨0, 0⟩) = some c1diff ∧
    objGet c1s1.storage (0, ⟨0, 0⟩) = some c1diff ∧
    Chunk.toChunkDiff ⟨3, 5⟩ 4 = c1diff ∧
    ∃ s2, ChunkManager.loadChunk ⟨0, 0⟩ c1s1 = some (s2, none) ∧
      ChunkManager.getTile s2.cm ⟨3, 5⟩ = some 1 ∧
      ChunkManager.getTile s2.cm ⟨3, 3⟩ = some 4 := by
  obtain ⟨ch', w', hload, hwid', hlen', htiles, hwp, hwd⟩ :=
    loadChunk_spec ⟨0, 0⟩ c1s1 0 c1MutChunk
      (by decide) rfl (by decide) (by decide) (by decide) rfl
      (by simp [c1MutChunk])
      (by simp [c1MutChunk])
      rfl
      (by intro x y hw
          simp [c1s1, c1World, World.lookup, World.new, objGet]
          decide)
  have hres : chunkDiffRes c1s1 ⟨0, 0⟩ = some c1diff := rfl
  simp only [hres] at hload
  rw [applyChunkDiff_c1diff ch'] at hload
  obtain ⟨s2, hl2, hmap2, hbuf2⟩ :
      ∃ s2, ChunkManager.loadChunk ⟨0, 0⟩ c1s1 = some (s2, none) ∧
        objGet s2.cm.chunkMap ⟨0, 0⟩ = some 0 ∧
        s2.cm.chunkBuffer.get? (0 : Nat) =
          some { ch' with tileGrid := ch'.tileGrid.setTile ⟨3, 3⟩ 4 } :=
    ⟨_, hload, by rfl, by rfl⟩
  refine ⟨by rfl, rfl, rfl, rfl, s2, hl2, ?_, ?_⟩
  · rw [getTile_resident s2.cm ⟨3, 5⟩ 0 ({ ch' with tileGrid := ch'.tileGrid.setTile ⟨3, 3⟩ 4 })
      (by rw [show Chunk.worldToUV ⟨3, 5⟩ = (⟨0, 0⟩ : Pos) from rfl]; exact hmap2)
      (by decide) hbuf2]
    show (ch'.tileGrid.setTile ⟨3, 3⟩ 4).getTile ⟨3, 5⟩ = some 1
    rw [TileGrid.getTile_setTile_ne ch'.tileGrid ⟨3, 3⟩ ⟨3, 5⟩ 4 (by rw [hwid']; decide)]
    rw [htiles ⟨3, 5⟩ (by decide)]
    rfl
  · rw [getTile_resident s2.cm ⟨3, 3⟩ 0 ({ ch' with tileGrid := ch'.tileGrid.setTile ⟨3, 3⟩ 4 })
      (by rw [show Chunk.worldToUV ⟨3, 3⟩ = (⟨0, 0⟩ : Pos) from rfl]; exact hmap2)
      (by decide) hbuf2]
    show (ch'.tileGrid.setTile ⟨3, 3⟩ 4).getTile ⟨3, 3⟩ = some 4
    rw [TileGrid.getTile_setTile_self ch'.tileGrid ⟨3, 3⟩ 4 (by rw [hwid']; decide)
      (by rw [hwid', hlen']; decide)]
    rfl

/-! ## Conservation of the chunk pool (C2): map/free-list bookkeeping -/

theorem objGet_eq_none_iff {κ α : Type} [DecidableEq κ] (m : List (κ × α)) (k : κ) :
    objGet m k = none ↔ ∀ e ∈ m, e.1 ≠ k := by
  unfold objGet
  simp [List.find?_eq_none]

theorem objSet_absent {κ α : Type} [DecidableEq κ] (m : List (κ × α)) (k : κ) (v : α)
    (h : objGet m k = none) : objSet m k v = m ++ [(k, v)] := by
  induction m with
  | nil => rfl
  | cons e rest ih =>
    have he : e.1 ≠ k := ((objGet_eq_none_iff _ _).mp h) e (List.mem_cons_self e rest)
    have hrest : objGet rest k = none := by
      rw [objGet_eq_none_iff] at h ⊢
      exact fun e2 h2 => h e2 (List.mem_cons_of_mem e h2)
    simp only [objSet, if_neg he, ih hrest, List.cons_append]

theorem objDelete_of_absent {κ α : Type} [DecidableEq κ] (m : List (κ × α)) (k : κ)
    (h : ∀ e ∈ m, e.1 ≠ k) : objDelete m k = m := by
  unfold objDelete
  rw [List.filter_eq_self]
  intro e he
  simpa using h e he

theorem objDelete_keys_sublist {κ α : Type} [DecidableEq κ] (m : List (κ × α)) (k : κ) :
    ((objDelete m k).map (·.1)).Sublist (m.map (·.1)) :=
  (List.filter_sublist m).map (·.1)

theorem objDelete_perm {κ α : Type} [DecidableEq κ] (m : List (κ × α)) (k : κ) (v : α)
    (hnd : (m.map (·.1)).Nodup) (h : objGet m k = some v) :
    m.Perm ((k, v) :: objDelete m k) := by
  induction m with
  | nil => simp [objGet] at h
  | cons e rest ih =>
    rw [objGet_cons] at h
    rw [List.map_cons, List.nodup_cons] at hnd
    by_cases hek : e.1 = k
    · rw [if_pos hek] at h
      obtain rfl := Option.some.inj h
      have hrest : ∀ e2 ∈ rest, e2.1 ≠ k := by
        intro e2 h2 hk2
        exact hnd.1 (hek ▸ hk2 ▸ List.mem_map_of_mem (·.1) h2)
      have he : e = (k, e.2) := by
        obtain ⟨e1, e2⟩ := e
        simp only [Prod.mk.injEq]
        exact ⟨hek, trivial⟩
      rw [objDelete, List.filter_cons_of_neg (by simp [hek])]
      rw [← objDelete, objDelete_of_absent rest k hrest]
      rw [← he]
    · rw [if_neg hek] at h
      have hperm := ih hnd.2 h
      rw [objDelete, List.filter_cons_of_pos (by simp [hek]), ← objDelete]
      exact (List.Perm.cons e hperm).trans (List.Perm.swap (k, v) e _)

theorem conservation_congr (cm cm' : ChunkManager)
    (hm : cm'.chunkMap = cm.chunkMap) (hb : cm'.bin = cm.bin)
    (hx : cm'.maxChunks = cm.maxChunks) (h : Conservation cm) : Conservation cm' := by
  unfold Conservation at h ⊢
  rw [hm, hb, hx]
  exact h

theorem conservation_perm (cm : ChunkManager) (bin' : List Int) (map' : List (Pos × Int))
    (hperm : (bin' ++ map'.map (·.2)).Perm (cm.bin ++ cm.chunkMap.map (·.2)))
    (hkeys : (map'.map (·.1)).Nodup)
    (h : Conservation cm) :
    Conservation { cm with bin := bin', chunkMap := map' } := by
  obtain ⟨h0, _, h2, h3, h4⟩ := h
  refine ⟨h0, hkeys, ?_, ?_, ?_⟩
  · exact (hperm.nodup_iff).mpr h2
  · intro i hi
    exact h3 i (hperm.mem_iff.mp hi)
  · intro n hn
    exact hperm.mem_iff.mpr (h4 n hn)

theorem cons_new (position : Pos) (width height distance : Int) :
    Conservation (ChunkManager.new position width height distance) := by
  have hM : 0 ≤ 1 + 4 * (distance * (distance + 1)) := by nlinarith [sq_nonneg (2 * distance + 1)]
  unfold ChunkManager.new Conservation
  simp only [List.map_nil, List.append_nil, List.nodup_nil]
  refine ⟨hM, by simp, ?_, ?_, ?_⟩
  · refine List.Nodup.map ?_ (List.nodup_range _)
    intro a b hab
    simp only at hab
    omega
  · intro i hi
    rw [List.mem_map] at hi
    obtain ⟨a, ha, rfl⟩ := hi
    rw [List.mem_range] at ha
    constructor <;> omega
  · intro n hn
    rw [List.mem_map]
    refine ⟨(1 + 4 * (distance * (distance + 1)) - 1 - (n : Int)).toNat, ?_, ?_⟩
    · rw [List.mem_range]
      omega
    · omega

theorem conservation_move (cm : ChunkManager) (k : Pos) (idx : Int)
    (hc : Conservation cm) (hk : objGet cm.chunkMap k = some idx) :
    Conservation { cm with bin := cm.bin ++ [idx], chunkMap := objDelete cm.chunkMap k } := by
  have hperm := objDelete_perm cm.chunkMap k idx hc.2.1 hk
  refine conservation_perm cm _ _ ?_ ?_ hc
  · have hv : (cm.chunkMap.map (·.2)).Perm (idx :: (objDelete cm.chunkMap k).map (·.2)) := by
      simpa using hperm.map (·.2)
    have hre : (cm.bin ++ [idx]) ++ (objDelete cm.chunkMap k).map (·.2)
        = cm.bin ++ (idx :: (objDelete cm.chunkMap k).map (·.2)) := by simp
    rw [hre]
    exact List.Perm.append_left cm.bin hv.symm
  · exact List.Nodup.sublist (objDelete_keys_sublist cm.chunkMap k) hc.2.1

theorem cons_loadChunk (p : Pos) (s : GState) (res : GState × Option Pos)
    (hc : Conservation s.cm) (h : ChunkManager.loadChunk p s = some res) :
    Conservation res.1.cm := by
  unfold ChunkManager.loadChunk at h
  split at h
  · obtain rfl := Option.some.inj h
    exact hc
  · rename_i hguard
    push_neg at hguard
    obtain ⟨h1, h2, h3⟩ := hguard
    have hlen : 0 < s.cm.bin.length := by simpa [ChunkManager.chunksAvailable] using h1
    have hne : s.cm.bin ≠ [] := by
      intro he
      rw [he] at hlen
      simp at hlen
    have hnl : objGet s.cm.chunkMap p = none := by
      cases hq : objGet s.cm.chunkMap p with
      | none => rfl
      | some v =>
        exact absurd (by simp [ChunkManager.loaded, hq]) h2
    have hlast : s.cm.bin.getLast? = some (s.cm.bin.getLast hne) :=
      List.getLast?_eq_getLast _ hne
    rw [hlast] at h
    simp only [Option.getD_some] at h
    split at h
    · exact absurd h (by simp)
    · split at h
      · exact absurd h (by simp)
      · have hset : objSet s.cm.chunkMap p (s.cm.bin.getLast hne) =
            s.cm.chunkMap ++ [(p, s.cm.bin.getLast hne)] := objSet_absent _ _ _ hnl
        have hpk : p ∉ s.cm.chunkMap.map (·.1) := by
          intro hmem
          rw [List.mem_map] at hmem
          obtain ⟨e, he, hep⟩ := hmem
          exact ((objGet_eq_none_iff _ _).mp hnl) e he hep
        have hperm : (s.cm.bin.dropLast ++
            (objSet s.cm.chunkMap p (s.cm.bin.getLast hne)).map (·.2)).Perm
            (s.cm.bin ++ s.cm.chunkMap.map (·.2)) := by
          rw [hset]
          have hre : (s.cm.chunkMap ++ [(p, s.cm.bin.getLast hne)]).map (·.2) =
              s.cm.chunkMap.map (·.2) ++ [s.cm.bin.getLast hne] := by simp
          rw [hre]
          have hbe : s.cm.bin.dropLast ++ [s.cm.bin.getLast hne] = s.cm.bin :=
            List.dropLast_append_getLast hne
          have hstep : (s.cm.bin.dropLast ++
              (s.cm.chunkMap.map (·.2) ++ [s.cm.bin.getLast hne])).Perm
              (s.cm.bin.dropLast ++ ([s.cm.bin.getLast hne] ++ s.cm.chunkMap.map (·.2))) :=
            List.Perm.append_left _ (List.perm_append_comm)
          refine hstep.trans ?_
          rw [← List.append_assoc, hbe]
        have hkeys : ((objSet s.cm.chunkMap p (s.cm.bin.getLast hne)).map (·.1)).Nodup := by
          rw [hset]
          have hre : (s.cm.chunkMap ++ [(p, s.cm.bin.getLast hne)]).map (·.1) =
              s.cm.chunkMap.map (·.1) ++ [p] := by simp
          rw [hre]
          simp [List.nodup_append, hc.2.1, hpk]
        repeat' split at h
        all_goals obtain rfl := Option.some.inj h
        all_goals (refine conservation_congr _ _ ?_ ?_ ?_ (conservation_perm s.cm _ _ hperm hkeys hc) <;> rfl)

theorem cons_unloadChunk (p : Pos) (s : GState) (res : GState × Option Pos)
    (hc : Conservation s.cm) (h : ChunkManager.unloadChunk p s = some res) :
    Conservation res.1.cm := by
  unfold ChunkManager.unloadChunk at h
  split at h
  · obtain rfl := Option.some.inj h
    exact hc
  · rename_i idx hk
    split at h
    · exact absurd h (by simp)
    · obtain rfl := Option.some.inj h
      refine conservation_congr _ _ ?_ ?_ ?_ (conservation_move s.cm p idx hc hk) <;> rfl

theorem foldlM_conservation {α : Type} (step : GState → α → Option GState)
    (hstep : ∀ acc a s2, Conservation acc.cm → step acc a = some s2 → Conservation s2.cm)
    (l : List α) :
    ∀ (s0 sF : GState), Conservation s0.cm → l.foldlM step s0 = some sF →
      Conservation sF.cm := by
  induction l with
  | nil =>
    intro s0 sF h he
    obtain rfl := Option.some.inj he
    exact h
  | cons a l ih =>
    intro s0 sF h he
    rw [List.foldlM_cons] at he
    rcases hs : step s0 a with _ | s1
    · rw [hs] at he
      exact absurd he (by simp)
    · rw [hs] at he
      exact ih s1 sF (hstep s0 a s1 h hs) he

theorem foldl_conservation {α : Type} (step : ChunkManager → α → ChunkManager)
    (hstep : ∀ acc a, Conservation acc → Conservation (step acc a))
    (l : List α) :
    ∀ c : ChunkManager, Conservation c → Conservation (l.foldl step c) := by
  induction l with
  | nil => exact fun c h => h
  | cons a l ih =>
    intro c h
    rw [List.foldl_cons]
    exact ih (step c a) (hstep c a h)

theorem cons_update (p : Pos) (f : Bool) (s : GState) (s' : GState)
    (hc : Conservation s.cm) (h : ChunkManager.update p f s = some s') :
    Conservation s'.cm := by
  unfold ChunkManager.update at h
  dsimp only at h
  have hc1 : Conservation
      ({ s with cm := { s.cm with playerPosition := Chunk.worldToUV p } } : GState).cm :=
    conservation_congr _ _ rfl rfl rfl hc
  split at h
  · obtain rfl := Option.some.inj h
    exact hc1
  · have hc2 : Conservation
        ({ s with cm := { s.cm with playerPosition := Chunk.worldToUV p, position := Chunk.worldToUV p } } : GState).cm :=
      conservation_congr _ _ rfl rfl rfl hc
    split at h
    · exact absurd h (by simp)
    · rename_i s3 hfold
      refine foldlM_conservation _ ?_ _ s3 s' ?_ h
      · intro acc a s2 hca hstep2
        rcases hl : ChunkManager.loadChunk a acc with _ | pr
        · rw [hl] at hstep2
          exact absurd hstep2 (by simp)
        · rw [hl] at hstep2
          simp only [Option.map_some'] at hstep2
          obtain rfl := Option.some.inj hstep2
          exact cons_loadChunk a acc pr hca hl
      · refine foldlM_conservation _ ?_ _ _ s3 hc2 hfold
        intro acc a s2 hca hstep2
        split at hstep2
        · rcases hu : ChunkManager.unloadChunk a acc with _ | pr
          · rw [hu] at hstep2
            exact absurd hstep2 (by simp)
          · rw [hu] at hstep2
            simp only [Option.map_some'] at hstep2
            obtain rfl := Option.some.inj hstep2
            exact cons_unloadChunk a acc pr hca hu
        · obtain rfl := Option.some.inj hstep2
          exact hca

theorem cons_reset (p : Pos) (w h : Int) (cm : ChunkManager)
    (hc : Conservation cm) : Conservation (ChunkManager.reset p w h cm) := by
  unfold ChunkManager.reset
  refine foldl_conservation _ ?_ _ _ (conservation_congr _ _ rfl rfl rfl hc)
  intro acc a hca
  rcases hk : objGet acc.chunkMap a with _ | idx
  · simp only [hk]
    exact hca
  · simp only [hk]
    exact conservation_move acc a idx hca hk

theorem cons_count (cm : ChunkManager) (hc : Conservation cm) :
    (cm.bin.length : Int) + (cm.chunkMap.length : Int) = cm.maxChunks := by
  obtain ⟨h0, _, h2, h3, h4⟩ := hc
  have hperm : (cm.bin ++ cm.chunkMap.map (·.2)).Perm
      ((List.range cm.maxChunks.toNat).map (fun n : Nat => (n : Int))) := by
    rw [List.perm_ext_iff_of_nodup h2 (List.Nodup.map (fun a b hab => by omega)
      (List.nodup_range _))]
    intro a
    constructor
    · intro ha
      obtain ⟨ha1, ha2⟩ := h3 a ha
      rw [List.mem_map]
      exact ⟨a.toNat, List.mem_range.mpr (by omega), by omega⟩
    · intro ha
      rw [List.mem_map] at ha
      obtain ⟨n, hn, rfl⟩ := ha
      rw [List.mem_range] at hn
      exact h4 n (by omega)
  have hlen := hperm.length_eq
  rw [List.length_append, List.length_map, List.length_map, List.length_range] at hlen
  omega

/-- C2: pool conservation.  `Conservation` states that the resident UVs are
pairwise distinct, the free list and the resident buffer indices are jointly
duplicate-free, and together they exactly cover `[0, maxChunks)` — so the two
index sets are disjoint and exhaustive, and every resident UV has exactly one
entry.  It holds for the constructor, is preserved by `loadChunk`,
`unloadChunk`, `update` and `reset`, and forces
`|bin| + |chunkMap| = maxChunks`. -/
theorem pool_conservation :
    (∀ (position : Pos) (width height distance : Int),
      Conservation (ChunkManager.new position width height distance)) ∧
    (∀ (p : Pos) (s : GState) (res : GState × Option Pos), Conservation s.cm →
      ChunkManager.loadChunk p s = some res → Conservation res.1.cm) ∧
    (∀ (p : Pos) (s : GState) (res : GState × Option Pos), Conservation s.cm →
      ChunkManager.unloadChunk p s = some res → Conservation res.1.cm) ∧
    (∀ (p : Pos) (f : Bool) (s : GState) (s' : GState), Conservation s.cm →
      ChunkManager.update p f s = some s' → Conservation s'.cm) ∧
    (∀ (p : Pos) (w h : Int) (cm : ChunkManager), Conservation cm →
      Conservation (ChunkManager.reset p w h cm)) ∧
    (∀ cm : ChunkManager, Conservation cm →
      (cm.bin.length : Int) + (cm.chunkMap.length : Int) = cm.maxChunks) :=
  ⟨cons_new, cons_loadChunk, cons_unloadChunk, cons_update, cons_reset, cons_count⟩

/-- Witness for `pool_conservation`: the fresh 3×3 manager, a guarded
(out-of-bounds) load, a guarded (non-resident) unload, an unchanged-position
update, a reset, and the count consequence `9 + 0 = 9`. -/
theorem pool_conservation_witness :
    Conservation cmFresh ∧
    Conservation ((⟨cmFresh, c1World, EntityManager.new, []⟩ : GState), some (⟨9, 9⟩ : Pos)).1.cm ∧
    Conservation ((⟨cmFresh, c1World, EntityManager.new, []⟩ : GState), some (⟨5, 5⟩ : Pos)).1.cm ∧
    Conservation ({ cm := { cmFresh with playerPosition := ⟨0, 0⟩ }, world := c1World, em := EntityManager.new, storage := [] } : GState).cm ∧
    Conservation (ChunkManager.reset ⟨0, 0⟩ 32 32 cmFresh) ∧
    (cmFresh.bin.length : Int) + (cmFresh.chunkMap.length : Int) = cmFresh.maxChunks := by
  have h1 : Conservation cmFresh := pool_conservation.1 ⟨0, 0⟩ 32 32 1
  refine ⟨h1, ?_, ?_, ?_, ?_, ?_⟩
  · exact pool_conservation.2.1 ⟨9, 9⟩ ⟨cmFresh, c1World, EntityManager.new, []⟩ _ h1 rfl
  · exact pool_conservation.2.2.1 ⟨5, 5⟩ ⟨cmFresh, c1World, EntityManager.new, []⟩ _ h1 rfl
  · exact pool_conservation.2.2.2.1 ⟨0, 0⟩ false ⟨cmFresh, c1World, EntityManager.new, []⟩ _ h1 rfl
  · exact pool_conservation.2.2.2.2.1 ⟨0, 0⟩ 32 32 cmFresh h1
  · exact pool_conservation.2.2.2.2.2 cmFresh h1

/-! ## Determinism of the template scan (C6) -/

theorem TileGrid.getD_setTile (g : TileGrid) (p : Pos) (t : Int) (i : Nat) :
    (g.setTile p t).data.getD i 0 =
      if 0 ≤ p.y * g.width + p.x ∧ (p.y * g.width + p.x).toNat < g.data.length ∧
          (p.y * g.width + p.x).toNat = i then (t % 256).toNat
      else g.data.getD i 0 := by
  unfold TileGrid.setTile
  by_cases hg : 0 ≤ p.y * g.width + p.x ∧ (p.y * g.width + p.x).toNat < g.data.length
  · rw [if_pos hg]
    by_cases hi : (p.y * g.width + p.x).toNat = i
    · rw [if_pos ⟨hg.1, hg.2, hi⟩]
      show (g.data.set (p.y * g.width + p.x).toNat (t % 256).toNat).getD i 0 = (t % 256).toNat
      rw [← hi, List.getD_eq_getElem?_getD, List.getElem?_set_self hg.2]
      rfl
    · rw [if_neg (by tauto)]
      show (g.data.set (p.y * g.width + p.x).toNat (t % 256).toNat).getD i 0 = g.data.getD i 0
      rw [List.getD_eq_getElem?_getD, List.getD_eq_getElem?_getD,
        List.getElem?_set_ne (by omega)]
  · rw [if_neg hg, if_neg (by tauto)]

theorem generateEntity_compat (rng tile : Int) (p : Pos) (depth : Int)
    (ch1 ch2 : Chunk) (em : EntityManager) (hid : ch1.idGrid = ch2.idGrid) :
    (ChunkManager.generateEntity rng tile p depth ch1 em = none ∧
     ChunkManager.generateEntity rng tile p depth ch2 em = none) ∨
    (∃ g em' rng',
      ChunkManager.generateEntity rng tile p depth ch1 em =
        some ({ ch1 with idGrid := g }, em', rng') ∧
      ChunkManager.generateEntity rng tile p depth ch2 em =
        some ({ ch2 with idGrid := g }, em', rng')) := by
  unfold ChunkManager.generateEntity
  by_cases hD : tile = TileJs.TileClosedDoor
  · rw [if_pos hD, if_pos hD]
    dsimp only
    rcases hins : em.insert (.door Door.new) with _ | pr
    · left
      exact ⟨rfl, rfl⟩
    · right
      obtain ⟨em1, newId⟩ := pr
      refine ⟨ch1.idGrid.setID p newId, _, _, rfl, ?_⟩
      rw [hid]
  · rw [if_neg hD, if_neg hD]
    right
    exact ⟨ch1.idGrid, em, rng, by rfl, by rw [hid]⟩

theorem loadCell_compat (wp p : Pos) (ch1 ch2 : Chunk) (w : World) (em : EntityManager)
    (rng : Int) (hc : ChunkCompat ch1 ch2) :
    (ChunkManager.loadCell wp true (ch1, w, em, rng) p = none ∧
     ChunkManager.loadCell wp true (ch2, w, em, rng) p = none) ∨
    (∃ d1 d2 w' em' rng' V,
      ChunkManager.loadCell wp true (ch1, w, em, rng) p = some (d1, w', em', rng') ∧
      ChunkManager.loadCell wp true (ch2, w, em, rng) p = some (d2, w', em', rng') ∧
      ChunkCompat d1 d2 ∧
      d1.tileGrid = ch1.tileGrid.setTile p V ∧ d2.tileGrid = ch2.tileGrid.setTile p V) := by
  obtain ⟨hvis, hcol, hid, hwd, hln⟩ := hc
  by_cases hE : TileJs.tileEntity (w.lookup (wp.x + p.x) (wp.y + p.y))
  · rcases generateEntity_compat rng (w.lookup (wp.x + p.x) (wp.y + p.y)) p w.depth
        ch1 ch2 em hid with ⟨hg1, hg2⟩ | ⟨g, em', rng', hg1, hg2⟩
    · left
      constructor <;> simp [ChunkManager.loadCell, hE, hg1, hg2]
    · right
      by_cases hC : TileJs.tileCollision (w.lookup (wp.x + p.x) (wp.y + p.y))
      · refine ⟨{ ch1 with idGrid := g, tileGrid := ch1.tileGrid.setTile p w.defaultTile, colGrid := ch1.colGrid.setBit p }, { ch2 with idGrid := g, tileGrid := ch2.tileGrid.setTile p w.defaultTile, colGrid := ch2.colGrid.setBit p }, w.delete (wp.x + p.x) (wp.y + p.y), em', rng', w.defaultTile, ?_, ?_, ?_, rfl, rfl⟩
        · simp [ChunkManager.loadCell, hE, hg1, hC]
          rfl
        · simp [ChunkManager.loadCell, hE, hg2, hC]
          rfl
        · exact ⟨hvis, by rw [hcol], rfl,
            by rw [TileGrid.width_setTile, TileGrid.width_setTile, hwd],
            by rw [TileGrid.length_setTile, TileGrid.length_setTile, hln]⟩
      · refine ⟨{ ch1 with idGrid := g, tileGrid := ch1.tileGrid.setTile p w.defaultTile }, { ch2 with idGrid := g, tileGrid := ch2.tileGrid.setTile p w.defaultTile }, w.delete (wp.x + p.x) (wp.y + p.y), em', rng', w.defaultTile, ?_, ?_, ?_, rfl, rfl⟩
        · simp [ChunkManager.loadCell, hE, hg1, hC]
          rfl
        · simp [ChunkManager.loadCell, hE, hg2, hC]
          rfl
        · exact ⟨hvis, by rw [hcol], rfl,
            by rw [TileGrid.width_setTile, TileGrid.width_setTile, hwd],
            by rw [TileGrid.length_setTile, TileGrid.length_setTile, hln]⟩
  · right
    by_cases hC : TileJs.tileCollision (w.lookup (wp.x + p.x) (wp.y + p.y))
    · refine ⟨{ ch1 with tileGrid := ch1.tileGrid.setTile p (w.lookup (wp.x + p.x) (wp.y + p.y)), colGrid := ch1.colGrid.setBit p }, { ch2 with tileGrid := ch2.tileGrid.setTile p (w.lookup (wp.x + p.x) (wp.y + p.y)), colGrid := ch2.colGrid.setBit p }, w, em, rng, w.lookup (wp.x + p.x) (wp.y + p.y), ?_, ?_, ?_, rfl, rfl⟩
      · simp [ChunkManager.loadCell, hE, hC]
      · simp [ChunkManager.loadCell, hE, hC]
      · exact ⟨hvis, by rw [hcol], hid,
          by rw [TileGrid.width_setTile, TileGrid.width_setTile, hwd],
          by rw [TileGrid.length_setTile, TileGrid.length_setTile, hln]⟩
    · refine ⟨{ ch1 with tileGrid := ch1.tileGrid.setTile p (w.lookup (wp.x + p.x) (wp.y + p.y)) }, { ch2 with tileGrid := ch2.tileGrid.setTile p (w.lookup (wp.x + p.x) (wp.y + p.y)) }, w, em, rng, w.lookup (wp.x + p.x) (wp.y + p.y), ?_, ?_, ?_, rfl, rfl⟩
      · simp [ChunkManager.loadCell, hE, hC]
      · simp [ChunkManager.loadCell, hE, hC]
      · exact ⟨hvis, hcol, hid,
          by rw [TileGrid.width_setTile, TileGrid.width_setTile, hwd],
          by rw [TileGrid.length_setTile, TileGrid.length_setTile, hln]⟩

theorem scanFold_compat (wp : Pos) (cs : List Pos) :
    ∀ (ch1 ch2 : Chunk) (w : World) (em : EntityManager) (rng : Int),
      ChunkCompat ch1 ch2 →
      (cs.foldlM (ChunkManager.loadCell wp true) (ch1, w, em, rng) = none ∧
       cs.foldlM (ChunkManager.loadCell wp true) (ch2, w, em, rng) = none) ∨
      (∃ d1 d2 w' em' rng',
        cs.foldlM (ChunkManager.loadCell wp true) (ch1, w, em, rng) = some (d1, w', em', rng') ∧
        cs.foldlM (ChunkManager.loadCell wp true) (ch2, w, em, rng) = some (d2, w', em', rng') ∧
        ChunkCompat d1 d2 ∧
        (∀ i : Nat,
          (ch1.tileGrid.data.getD i 0 = ch2.tileGrid.data.getD i 0 ∨
           ∃ p ∈ cs, 0 ≤ p.y * ch1.tileGrid.width + p.x ∧
             (p.y * ch1.tileGrid.width + p.x).toNat < ch1.tileGrid.data.length ∧
             (p.y * ch1.tileGrid.width + p.x).toNat = i) →
          d1.tileGrid.data.getD i 0 = d2.tileGrid.data.getD i 0)) := by
  induction cs with
  | nil =>
    intro ch1 ch2 w em rng hc
    right
    refine ⟨ch1, ch2, w, em, rng, rfl, rfl, hc, ?_⟩
    intro i hi
    rcases hi with hi | ⟨p, hp, _⟩
    · exact hi
    · exact absurd hp (List.not_mem_nil p)
  | cons p cs ih =>
    intro ch1 ch2 w em rng hc
    have hwd := hc.2.2.2.1
    have hln := hc.2.2.2.2
    rcases loadCell_compat wp p ch1 ch2 w em rng hc with ⟨h1, h2⟩ |
      ⟨d1, d2, w', em', rng', V, h1, h2, hc', ht1, ht2⟩
    · left
      constructor <;> rw [List.foldlM_cons]
      · rw [h1]
        rfl
      · rw [h2]
        rfl
    · have hwd1 : d1.tileGrid.width = ch1.tileGrid.width := by
        rw [ht1, TileGrid.width_setTile]
      have hln1 : d1.tileGrid.data.length = ch1.tileGrid.data.length := by
        rw [ht1, TileGrid.length_setTile]
      rcases ih d1 d2 w' em' rng' hc' with ⟨hf1, hf2⟩ |
        ⟨e1, e2, w2, em2, rng2, hf1, hf2, hcf, hagree⟩
      · left
        constructor <;> rw [List.foldlM_cons]
        · rw [h1]
          exact hf1
        · rw [h2]
          exact hf2
      · right
        refine ⟨e1, e2, w2, em2, rng2, ?_, ?_, hcf, ?_⟩
        · rw [List.foldlM_cons, h1]
          exact hf1
        · rw [List.foldlM_cons, h2]
          exact hf2
        · intro i hi
          refine hagree i ?_
          rcases hi with hi | ⟨q, hq, hqb1, hqb2, hqi⟩
          · left
            rw [ht1, ht2, TileGrid.getD_setTile, TileGrid.getD_setTile]
            rw [← hwd, ← hln]
            by_cases hcase : 0 ≤ p.y * ch1.tileGrid.width + p.x ∧
                (p.y * ch1.tileGrid.width + p.x).toNat < ch1.tileGrid.data.length ∧
                (p.y * ch1.tileGrid.width + p.x).toNat = i
            · rw [if_pos hcase, if_pos hcase]
            · rw [if_neg hcase, if_neg hcase]
              exact hi
          · rcases List.mem_cons.mp hq with rfl | hq'
            · left
              rw [ht1, ht2, TileGrid.getD_setTile, TileGrid.getD_setTile]
              rw [← hwd, ← hln]
              rw [if_pos ⟨hqb1, hqb2, hqi⟩, if_pos ⟨hqb1, hqb2, hqi⟩]
            · right
              refine ⟨q, hq', ?_, ?_, ?_⟩
              · rw [hwd1]
                exact hqb1
              · rw [hwd1, hln1]
                exact hqb2
              · rw [hwd1]
                exact hqi

theorem list_eq_of_getD (l1 l2 : List Nat) (hl : l1.length = l2.length)
    (h : ∀ i, l1.getD i 0 = l2.getD i 0) : l1 = l2 := by
  apply List.ext_getElem?
  intro i
  by_cases hi : i < l1.length
  · have e1 : l1[i]? = some l1[i] := List.getElem?_eq_getElem hi
    have e2 : l2[i]? = some (l2.get ⟨i, by omega⟩) := List.getElem?_eq_getElem (by omega)
    rw [e1, e2]
    have hgi := h i
    rw [List.getD_eq_getElem?_getD, List.getD_eq_getElem?_getD, e1, e2] at hgi
    simpa using hgi
  · rw [List.getElem?_eq_none (by omega), List.getElem?_eq_none (by omega)]

theorem cells_cover (i : Nat) (hi : i < 256) :
    ∃ p ∈ Chunk.cells, 0 ≤ p.y * (16 : Int) + p.x ∧
      (p.y * (16 : Int) + p.x).toNat < 256 ∧ (p.y * (16 : Int) + p.x).toNat = i := by
  refine ⟨⟨((i % 16 : Nat) : Int), ((i / 16 : Nat) : Int)⟩, ?_, ?_, ?_, ?_⟩
  · exact (mem_cells _).mpr ⟨(by omega : (0 : Int) ≤ ((i % 16 : Nat) : Int)),
      (by omega : ((i % 16 : Nat) : Int) < 16),
      (by omega : (0 : Int) ≤ ((i / 16 : Nat) : Int)),
      (by omega : ((i / 16 : Nat) : Int) < 16)⟩
  · exact (by omega : (0 : Int) ≤ ((i / 16 : Nat) : Int) * 16 + ((i % 16 : Nat) : Int))
  · exact (by omega : (((i / 16 : Nat) : Int) * 16 + ((i % 16 : Nat) : Int)).toNat < 256)
  · exact (by omega : (((i / 16 : Nat) : Int) * 16 + ((i % 16 : Nat) : Int)).toNat = i)

/-- C6: determinism of chunk loading.  First, `loadChunk` is a pure function
of the state: two runs from extensionally equal states (equal manager, world
template and storage, pointwise-equal entity-manager archetype arrays and
free lists) return identical results — in particular byte-identical grids
and identical generated-entity field values, since the seeded
`hashSeed`/mulberry32 stream is recomputed from `(seed, depth, uv)` alone.
Second, the template scan does not even depend on the stale tile bytes of
the recycled buffer chunk: two scans over chunks that agree except on tile
data (as after `loadChunk` clears the collision/visibility/id grids) return
equal results outright. -/
theorem loadChunk_deterministic :
    (∀ (p : Pos) (s1 s2 : GState), s1.cm = s2.cm → s1.world = s2.world →
      s1.storage = s2.storage → (∀ t, s1.em.data t = s2.em.data t) →
      (∀ t, s1.em.bin t = s2.em.bin t) →
      ChunkManager.loadChunk p s1 = ChunkManager.loadChunk p s2) ∧
    (∀ (w : World) (uv : Pos) (em : EntityManager) (rng : Int) (ch1 ch2 : Chunk),
      ChunkCompat ch1 ch2 → ch1.tileGrid.width = 16 → ch1.tileGrid.data.length = 256 →
      ChunkManager.scanCells w uv em rng ch1 true =
        ChunkManager.scanCells w uv em rng ch2 true) := by
  constructor
  · intro p s1 s2 hcm hw hst hd hb
    obtain ⟨cm1, w1, em1, st1⟩ := s1
    obtain ⟨cm2, w2, em2, st2⟩ := s2
    have hcm' : cm1 = cm2 := hcm
    have hw' : w1 = w2 := hw
    have hst' : st1 = st2 := hst
    subst hcm' hw' hst'
    have hem : em1 = em2 := by
      obtain ⟨da1, bi1⟩ := em1
      obtain ⟨da2, bi2⟩ := em2
      congr 1
      · funext t
        exact hd t
      · funext t
        exact hb t
    rw [hem]
  · intro w uv em rng ch1 ch2 hc hw hl
    have hl2 : ch2.tileGrid.data.length = 256 := by rw [← hc.2.2.2.2, hl]
    unfold ChunkManager.scanCells
    rcases scanFold_compat (Chunk.UVToWorld uv) Chunk.cells ch1 ch2 w em rng hc with
      ⟨hn1, hn2⟩ | ⟨d1, d2, w', em', rng', hf1, hf2, hcf, hagree⟩
    · rw [hn1, hn2]
    · rw [hf1, hf2]
      have hag : ∀ i : Nat, d1.tileGrid.data.getD i 0 = d2.tileGrid.data.getD i 0 := by
        intro i
        by_cases hi : i < 256
        · refine hagree i (Or.inr ?_)
          rw [hw, hl]
          exact cells_cover i hi
        · refine hagree i (Or.inl ?_)
          rw [List.getD_eq_getElem?_getD, List.getD_eq_getElem?_getD,
            List.getElem?_eq_none (by omega), List.getElem?_eq_none (by omega)]
      have hlen12 : d1.tileGrid.data.length = d2.tileGrid.data.length := hcf.2.2.2.2
      have hdata : d1.tileGrid.data = d2.tileGrid.data := list_eq_of_getD _ _ hlen12 hag
      have hdeq : d1 = d2 := by
        obtain ⟨hviz, hcolz, hidz, hwdz, _⟩ := hcf
        obtain ⟨t1, v1, c1, i1⟩ := d1
        obtain ⟨t2, v2, c2, i2⟩ := d2
        obtain ⟨w1g, dat1⟩ := t1
        obtain ⟨w2g, dat2⟩ := t2
        simp_all
      rw [hdeq]

/-- Witness for `loadChunk_deterministic`: the concrete state `c1s0` run
twice, and the template scan over a zeroed chunk versus the all-floor
baseline chunk. -/
theorem loadChunk_deterministic_witness :
    ChunkManager.loadChunk ⟨0, 0⟩ c1s0 = ChunkManager.loadChunk ⟨0, 0⟩ c1s0 ∧
    ChunkManager.scanCells c1World ⟨0, 0⟩ EntityManager.new 7 Chunk.new true =
      ChunkManager.scanCells c1World ⟨0, 0⟩ EntityManager.new 7 c1BaseChunk true :=
  ⟨loadChunk_deterministic.1 ⟨0, 0⟩ c1s0 c1s0 rfl rfl rfl (fun _ => rfl) (fun _ => rfl),
   loadChunk_deterministic.2 c1World ⟨0, 0⟩ EntityManager.new 7 Chunk.new c1BaseChunk
     ⟨rfl, rfl, rfl, rfl, rfl⟩ rfl rfl⟩

/-! ## The window load loop over a door-free world (towards C8) -/

theorem scanExpected_congr (w1 w2 : World) (wp q : Pos)
    (hlk : w1.lookup (wp.x + q.x) (wp.y + q.y) = w2.lookup (wp.x + q.x) (wp.y + q.y))
    (hd : w1.defaultTile = w2.defaultTile) :
    scanExpected w1 wp q = scanExpected w2 wp q := by
  unfold scanExpected
  rw [hlk, hd]

theorem window_disjoint (q p : Pos) (hqp : q ≠ p) (x y : Int)
    (h : inWindow q x y) (h2 : inWindow p x y) : False := by
  obtain ⟨qu, qv⟩ := q
  obtain ⟨pu, pv⟩ := p
  simp only [inWindow] at h h2
  apply hqp
  rw [Pos.mk.injEq]
  constructor <;> omega

theorem loadFold_nodoor (ps : List Pos) :
    ∀ (s : GState),
      ps.Nodup →
      (∀ p ∈ ps, objGet s.cm.chunkMap p = none) →
      (∀ p ∈ ps, s.cm.inBounds p = true) →
      s.cm.chunkDiffCache = [] →
      s.cm.entityDiffCache = [] →
      s.storage = [] →
      ps.length ≤ s.cm.bin.length →
      (∀ j ∈ s.cm.bin, 0 ≤ j ∧ j.toNat < s.cm.chunkBuffer.length) →
      s.cm.bin.Nodup →
      (∀ ch ∈ s.cm.chunkBuffer, ch.tileGrid.width = 16 ∧ ch.tileGrid.data.length = 256) →
      (∀ p ∈ ps, ∀ x y : Int, inWindow p x y → s.world.lookup x y ≠ TileJs.TileClosedDoor) →
      ∃ s' : GState,
        ps.foldlM (fun acc q => (ChunkManager.loadChunk q acc).map (·.1)) s = some s' ∧
        s'.cm.chunkMap.length = s.cm.chunkMap.length + ps.length ∧
        s'.cm.chunkDiffCache = [] ∧ s'.cm.entityDiffCache = [] ∧ s'.storage = [] ∧
        s'.cm.width = s.cm.width ∧ s'.cm.height = s.cm.height ∧
        s'.cm.maxChunks = s.cm.maxChunks ∧
        (∀ uvq : Pos, uvq ∉ ps → objGet s'.cm.chunkMap uvq = objGet s.cm.chunkMap uvq) ∧
        (∀ i : Nat, (∀ j ∈ s.cm.bin, j.toNat ≠ i) →
          s'.cm.chunkBuffer.get? i = s.cm.chunkBuffer.get? i) ∧
        s'.cm.chunkBuffer.length = s.cm.chunkBuffer.length ∧
        (∀ x y : Int, (∀ p ∈ ps, ¬ inWindow p x y) →
          s'.world.lookup x y = s.world.lookup x y) ∧
        s'.world.defaultTile = s.world.defaultTile ∧
        (∀ p ∈ ps, ∃ ch : Chunk,
          ChunkManager.getChunk s'.cm p = some ch ∧
          (∀ q ∈ Chunk.cells,
            ch.tileGrid.getTile q = some (scanExpected s.world (Chunk.UVToWorld p) q))) := by
  induction ps with
  | nil =>
    intro s _ _ _ h4 h5 h6 _ _ _ _ _
    refine ⟨s, rfl, by simp, h4, h5, h6, rfl, rfl, rfl, fun _ _ => rfl, fun _ _ => rfl, rfl,
      fun _ _ _ => rfl, rfl, ?_⟩
    intro p hp
    exact absurd hp (List.not_mem_nil p)
  | cons p ps ih =>
    intro s h1 h2 h3 h4 h5 h6 h7 h8 h9 h10 h11
    obtain ⟨hp_nodup, htail_nodup⟩ := List.nodup_cons.mp h1
    have hne : s.cm.bin ≠ [] := by
      intro he
      rw [he] at h7
      simp at h7
    have hlast := List.getLast?_eq_getLast s.cm.bin hne
    have hidxmem : s.cm.bin.getLast hne ∈ s.cm.bin := List.getLast_mem hne
    obtain ⟨hidx0, hidxlt⟩ := h8 _ hidxmem
    have hbufeq : s.cm.chunkBuffer.get? (s.cm.bin.getLast hne).toNat =
        some (s.cm.chunkBuffer[(s.cm.bin.getLast hne).toNat]) := by
      rw [List.get?_eq_getElem?]
      exact List.getElem?_eq_getElem hidxlt
    obtain ⟨hwid0, hlen0⟩ := h10 _ (List.getElem_mem hidxlt)
    obtain ⟨ch', w', hload, hwid', hlen', htiles, hwp, hwd⟩ :=
      loadChunk_spec p s (s.cm.bin.getLast hne) _
        (by simp only [ChunkManager.chunksAvailable, decide_eq_true_eq]
            exact List.length_pos.mpr hne)
        (h2 p (List.mem_cons_self p ps))
        (h3 p (List.mem_cons_self p ps))
        hlast hidx0 hbufeq hwid0 hlen0
        (by rw [h5]; rfl)
        (h11 p (List.mem_cons_self p ps))
    have hres : chunkDiffRes s p = none := by
      unfold chunkDiffRes
      rw [h4, h6]
      rfl
    simp only [hres] at hload
    have hsplit : s.cm.bin.dropLast ++ [s.cm.bin.getLast hne] = s.cm.bin :=
      List.dropLast_append_getLast hne
    have hlastnotin : s.cm.bin.getLast hne ∉ s.cm.bin.dropLast := by
      have h9b := h9
      rw [← hsplit, List.nodup_append] at h9b
      intro hmem
      exact h9b.2.2 hmem (List.mem_singleton_self _)
    obtain ⟨s', hfold, hmaplen, hcd', hed', hst', hwidth', hheight', hmax', hmapres, hbufres,
        hbuflen, hwres, hwdef, hpayload⟩ :=
      ih ({ cm := { s.cm with chunkMap := objSet s.cm.chunkMap p (s.cm.bin.getLast hne), bin := s.cm.bin.dropLast, chunkBuffer := s.cm.chunkBuffer.set (s.cm.bin.getLast hne).toNat ch', chunkDiffCache := s.cm.chunkDiffCache }, world := w', em := s.em, storage := s.storage })
        htail_nodup
        (fun q hq => by
          have hqp : q ≠ p := fun he => hp_nodup (he ▸ hq)
          show objGet (objSet s.cm.chunkMap p (s.cm.bin.getLast hne)) q = none
          rw [objGet_objSet_ne _ _ _ _ hqp]
          exact h2 q (List.mem_cons_of_mem p hq))
        (fun q hq => h3 q (List.mem_cons_of_mem p hq))
        h4 h5 h6
        (by
          show ps.length ≤ s.cm.bin.dropLast.length
          rw [List.length_dropLast]
          have := h7
          rw [List.length_cons] at this
          omega)
        (fun j hj => by
          obtain ⟨hj0, hjlt⟩ := h8 j ((List.dropLast_sublist _).subset hj)
          refine ⟨hj0, ?_⟩
          show j.toNat < (s.cm.chunkBuffer.set (s.cm.bin.getLast hne).toNat ch').length
          rw [List.length_set]
          exact hjlt)
        (List.Nodup.sublist (List.dropLast_sublist _) h9)
        (fun ch hch => by
          rcases List.mem_or_eq_of_mem_set hch with hmem | rfl
          · exact h10 ch hmem
          · exact ⟨hwid', hlen'⟩)
        (fun q hq x y hw => by
          have hqp : q ≠ p := fun he => hp_nodup (he ▸ hq)
          show w'.lookup x y ≠ TileJs.TileClosedDoor
          rw [hwp x y (fun hpw => window_disjoint q p hqp x y hw hpw)]
          exact h11 q (List.mem_cons_of_mem p hq) x y hw)
    refine ⟨s', ?_, ?_, hcd', hed', hst', hwidth', hheight', hmax', ?_, ?_, ?_, ?_,
      hwdef.trans hwd, ?_⟩
    · rw [List.foldlM_cons, hload]
      exact hfold
    · have hs1len : (objSet s.cm.chunkMap p (s.cm.bin.getLast hne)).length =
          s.cm.chunkMap.length + 1 := by
        rw [objSet_absent _ _ _ (h2 p (List.mem_cons_self p ps))]
        simp
      have := hmaplen
      rw [show (({ cm := { s.cm with chunkMap := objSet s.cm.chunkMap p (s.cm.bin.getLast hne), bin := s.cm.bin.dropLast, chunkBuffer := s.cm.chunkBuffer.set (s.cm.bin.getLast hne).toNat ch', chunkDiffCache := s.cm.chunkDiffCache }, world := w', em := s.em, storage := s.storage }) : GState).cm.chunkMap.length =
          s.cm.chunkMap.length + 1 from hs1len] at this
      rw [this, List.length_cons]
      omega
    · intro uvq huvq
      have hne2 : uvq ≠ p := fun he => huvq (he ▸ List.mem_cons_self p ps)
      have hstep := hmapres uvq (fun hm => huvq (List.mem_cons_of_mem p hm))
      rw [hstep]
      show objGet (objSet s.cm.chunkMap p (s.cm.bin.getLast hne)) uvq = _
      exact objGet_objSet_ne _ _ _ _ hne2
    · intro i hi
      have hstep := hbufres i (fun j hj => hi j ((List.dropLast_sublist _).subset hj))
      rw [hstep]
      show (s.cm.chunkBuffer.set (s.cm.bin.getLast hne).toNat ch').get? i =
        s.cm.chunkBuffer.get? i
      rw [List.get?_eq_getElem?, List.get?_eq_getElem?,
        List.getElem?_set_ne (hi _ hidxmem)]
    · rw [hbuflen]
      show (s.cm.chunkBuffer.set (s.cm.bin.getLast hne).toNat ch').length =
        s.cm.chunkBuffer.length
      rw [List.length_set]
    · intro x y hxy
      have hstep := hwres x y (fun q hq => hxy q (List.mem_cons_of_mem p hq))
      rw [hstep]
      exact hwp x y (hxy p (List.mem_cons_self p ps))
    · intro q hq
      rcases List.mem_cons.mp hq with rfl | hq2
      · refine ⟨ch', ?_, htiles⟩
        have hm : objGet s'.cm.chunkMap q = some (s.cm.bin.getLast hne) := by
          rw [hmapres q hp_nodup]
          show objGet (objSet s.cm.chunkMap q (s.cm.bin.getLast hne)) q = _
          exact objGet_objSet_self _ _ _
        have hb : s'.cm.chunkBuffer.get? (s.cm.bin.getLast hne).toNat = some ch' := by
          have htail2 : ∀ j ∈ s.cm.bin.dropLast, j.toNat ≠ (s.cm.bin.getLast hne).toNat := by
            intro j hj hee
            have hj0 := (h8 j ((List.dropLast_sublist _).subset hj)).1
            have hje : j = s.cm.bin.getLast hne := by omega
            exact hlastnotin (hje ▸ hj)
          rw [hbufres _ htail2]
          show (s.cm.chunkBuffer.set (s.cm.bin.getLast hne).toNat ch').get?
            (s.cm.bin.getLast hne).toNat = some ch'
          rw [List.get?_eq_getElem?, List.getElem?_set_self hidxlt]
        unfold ChunkManager.getChunk
        rw [hm, Option.some_bind, if_pos hidx0, hb]
      · have hqp : q ≠ p := fun he => hp_nodup (he ▸ hq2)
        obtain ⟨ch, hgc, htl⟩ := hpayload q hq2
        refine ⟨ch, hgc, ?_⟩
        intro c hc
        rw [htl c hc]
        congr 1
        refine scanExpected_congr _ _ _ _ ?_ hwd
        show w'.lookup _ _ = s.world.lookup _ _
        refine hwp _ _ ?_
        intro hpw
        exact window_disjoint q p hqp _ _
          (inWindow_of_cell q c ((mem_cells c).mp hc)) hpw

/-! ## The seeded town scenario (C8) -/

theorem objGet_val_mem {κ α : Type} [DecidableEq κ] (m : List (κ × α)) (k : κ) (v : α)
    (h : objGet m k = some v) : ∃ e ∈ m, e.2 = v := by
  unfold objGet at h
  rcases hf : m.find? (fun e => decide (e.1 = k)) with _ | e
  · rw [hf] at h
    cases h
  · rw [hf] at h
    exact ⟨e, List.mem_of_find?_eq_some hf, Option.some.inj h⟩

theorem townWorld_default : townWorld.defaultTile = TypesJs.TileFloor := by rfl

set_option maxHeartbeats 4000000 in
theorem townTiles_nodoor : ∀ e ∈ townWorld.tiles, e.2 ≠ TileJs.TileClosedDoor := by decide

theorem townWorld_nodoor : ∀ x y : Int, townWorld.lookup x y ≠ TileJs.TileClosedDoor := by
  intro x y
  unfold World.lookup
  rcases hf : objGet townWorld.tiles ⟨x, y⟩ with _ | v
  · simp only [Option.getD_none]
    rw [townWorld_default]
    decide
  · simp only [Option.getD_some]
    obtain ⟨e, hem, hev⟩ := objGet_val_mem _ _ _ hf
    rw [← hev]
    exact townTiles_nodoor e hem

theorem townSpawn_eq : townSpawn = ⟨64, 64⟩ := by rfl

set_option maxHeartbeats 4000000 in
theorem townWorld_spawn_lookup : townWorld.lookup 64 64 = TypesJs.TilePlayer := by decide

/-- C8: the seeded town scenario.  With seed 1337 and depth 0,
`generateTown()` returns the spawn `(64, 64)` and sets the floor default;
`ChunkManager.update(spawn, world, entities, true)` on a fresh manager with
render distance 2 succeeds, after which exactly 25 chunks are resident
(`chunkMap` has `25 = 1 + 4·2·(2+1) = maxChunks` entries) and
`getTile(spawn)` returns the town floor tile `1` (the `Tile.Player` seed at
the spawn is converted to the default floor tile as its entity is spawned). -/
theorem town_update_scenario :
    townWorld.defaultTile = TypesJs.TileFloor ∧
    townSpawn = ⟨64, 64⟩ ∧
    ∃ s2 : GState,
      ChunkManager.update ⟨64, 64⟩ true townState = some s2 ∧
      s2.cm.chunkMap.length = 25 ∧
      s2.cm.maxChunks = 25 ∧
      ChunkManager.getTile s2.cm ⟨64, 64⟩ = some TypesJs.TileFloor := by
  obtain ⟨s2, hfold, hmaplen, hcd, hed, hst, hwidth, hheight, hmax, hmapres, hbufres,
      hbuflen, hwres, hwdef, hpayload⟩ :=
    loadFold_nodoor ([⟨2, 2⟩, ⟨3, 2⟩, ⟨4, 2⟩, ⟨5, 2⟩, ⟨6, 2⟩, ⟨2, 3⟩, ⟨3, 3⟩, ⟨4, 3⟩, ⟨5, 3⟩, ⟨6, 3⟩, ⟨2, 4⟩, ⟨3, 4⟩, ⟨4, 4⟩, ⟨5, 4⟩, ⟨6, 4⟩, ⟨2, 5⟩, ⟨3, 5⟩, ⟨4, 5⟩, ⟨5, 5⟩, ⟨6, 5⟩, ⟨2, 6⟩, ⟨3, 6⟩, ⟨4, 6⟩, ⟨5, 6⟩, ⟨6, 6⟩])
      ({ cm := { ChunkManager.new townSpawn 128 128 2 with playerPosition := ⟨4, 4⟩, position := ⟨4, 4⟩ }, world := townWorld, em := EntityManager.new, storage := [] })
      (by decide)
      (fun p _ => rfl)
      (by decide)
      rfl rfl rfl
      (by decide)
      (by decide)
      (by decide)
      (fun ch hch => by
        rw [List.eq_of_mem_replicate hch]
        exact ⟨rfl, rfl⟩)
      (fun p _ x y _ => townWorld_nodoor x y)
  refine ⟨townWorld_default, townSpawn_eq, s2, ?_, ?_, ?_, ?_⟩
  · unfold ChunkManager.update
    rw [if_neg (by decide)]
    exact hfold
  · rw [hmaplen]
    rfl
  · rw [hmax]
    rfl
  · obtain ⟨ch, hgc, htl⟩ := hpayload ⟨4, 4⟩ (by decide)
    have hgt : ChunkManager.getTile s2.cm ⟨64, 64⟩ = ch.tileGrid.getTile ⟨0, 0⟩ := by
      unfold ChunkManager.getTile
      rw [show Chunk.worldToUV ⟨64, 64⟩ = (⟨4, 4⟩ : Pos) from rfl, hgc]
      rfl
    rw [hgt, htl ⟨0, 0⟩ (by decide)]
    have hse : scanExpected townWorld (Chunk.UVToWorld ⟨4, 4⟩) ⟨0, 0⟩ = TypesJs.TileFloor := by
      unfold scanExpected
      rw [show (Chunk.UVToWorld (⟨4, 4⟩ : Pos)).x + (⟨(0 : Int), (0 : Int)⟩ : Pos).x = 64 from rfl,
        show (Chunk.UVToWorld (⟨4, 4⟩ : Pos)).y + (⟨(0 : Int), (0 : Int)⟩ : Pos).y = 64 from rfl,
        townWorld_spawn_lookup, townWorld_default]
      decide
    rw [hse]
